import Mathlib

/-!
Verification development for the myousync music-synchronization service and
its multitag audio-tag library.

Each Rust function relevant to the verified properties is shallowly embedded
as an executable Lean definition.  Machine integers are modelled as `Nat`
(instants and durations in milliseconds; `Instant` subtraction in Rust
saturates at zero, which `Nat` subtraction models exactly).  IO oracles
(database rows, the filesystem, remote services) are passed as explicit
function arguments.  Unicode-aware Rust string operations (`to_uppercase`,
`trim`, the `\b` word boundary of the `regex` crate) are modelled at ASCII
precision, which covers every input appearing in the theorems below.
-/

namespace Myousync

/-! ## String helpers -/

/-- Character-list substring search: does `pat` occur contiguously in `l`? -/
def containsSub (l pat : List Char) : Bool :=
  match l with
  | [] => pat.isEmpty
  | _ :: rest => pat.isPrefixOf l || containsSub rest pat

/-- Substring containment, modelling Rust `str::contains(&str)`. -/
def strContains (s pat : String) : Bool :=
  containsSub s.toList pat.toList

/-- Character-wise upper-casing, modelling Rust `str::to_uppercase` at
ASCII precision. -/
def strToUpper (s : String) : String :=
  String.mk (s.toList.map Char.toUpper)

/-- Whitespace trimming from both ends, modelling Rust `str::trim` at
ASCII precision. -/
def strTrim (s : String) : String :=
  String.mk
    (((s.toList.dropWhile Char.isWhitespace).reverse.dropWhile
      Char.isWhitespace).reverse)

/-- Splitter at every non-overlapping leftmost occurrence of `sep`;
`acc` is the current piece reversed, `fuel` at least the haystack length. -/
def splitOnGo (sep : List Char) : Nat → List Char → List Char →
    List (List Char)
  | _, acc, [] => [acc.reverse]
  | 0, acc, cs => [acc.reverse ++ cs]
  | fuel + 1, acc, c :: rest =>
    if sep.isPrefixOf (c :: rest) then
      acc.reverse :: splitOnGo sep fuel [] ((c :: rest).drop sep.length)
    else splitOnGo sep fuel (c :: acc) rest

/-- Split on a non-empty separator substring, modelling Rust `str::split`
with a string or character pattern. -/
def strSplitOn (s sep : String) : List String :=
  if sep = "" then [s]
  else (splitOnGo sep.toList s.toList.length [] s.toList).map String.mk

/-! ## Authorization core (`myousync/src/auth.rs`) -/

/-- Row of the `users` table (`dbdata/models.rs`, `UserData`). -/
structure UserData where
  username : String
  password : String
deriving DecidableEq, Repr

/-- Body of the `/login` request (`auth.rs`, `SignInData`). -/
structure SignInData where
  username : String
  password : String
deriving DecidableEq, Repr

/-- Error response of the auth layer (`auth.rs`, `AuthError`);
`statusCode` is the numeric HTTP status. -/
structure AuthError where
  message : String
  statusCode : Nat
deriving DecidableEq, Repr

/-- Embedding of `auth.rs::sign_in` (lines 48-74).  The database lookup
(`DB.get_user`), the password-hash library check (`verify_password`, which
returns whether `Pbkdf2::verify_password` succeeded) and the JWT encoder
(`encode_jwt`, `none` on encoding failure) are oracle parameters.  The
translation preserves the source exactly, including the un-negated
`if verify_password(..) { return Err(..) }` branch. -/
def signIn (getUser : String → Option UserData)
    (verifyPassword : String → String → Bool)
    (encodeJwt : String → Option String)
    (userData : SignInData) : Except AuthError String :=
  match getUser userData.username with
  | Option.none => .error ⟨"User not found", 401⟩
  | some user =>
    if verifyPassword user.password userData.password then
      .error ⟨"Invalid password", 401⟩
    else
      match encodeJwt user.username with
      | Option.none => .error ⟨"Internal token error", 500⟩
      | some token => .ok token

/-! ## Rate limiter (`myousync/src/util/limiter.rs`)

Instants are `Nat` milliseconds on the monotonic clock.  Rust
`Instant - Instant` is `duration_since`, which saturates to zero when the
right operand is later; `Nat` subtraction has the same semantics. -/

/-- Mutex-protected state of a `Limiter` (`limiter.rs`, `LimiterTimes`). -/
structure LimiterTimes where
  nextAllowedTime : Option Nat
  claimedNextTime : Option Nat
deriving DecidableEq, Repr

/-- The `CHECK_TOLERANCE` constant (15 ms). -/
def checkTolerance : Nat := 15

/-- Rust `a.checked_sub(b).unwrap_or(a)`: `a - b` unless that underflows,
in which case `a` itself. -/
def checkedSubOr (a b : Nat) : Nat :=
  if b ≤ a then a - b else a

/-- Embedding of `Limiter::try_claim_next` (limiter.rs lines 38-67) at a
given current instant `now`.  Returns the updated state and, as the second
component, `none` when the caller may fetch immediately or `some d` when the
caller is told to sleep `d` and retry.  The returned duration is the
source's `now - new_claimed_time`, an `Instant` subtraction that saturates
to zero. -/
def tryClaimNext (waitTime : Nat) (times : LimiterTimes) (now : Nat) :
    LimiterTimes × Option Nat :=
  match times.nextAllowedTime with
  | Option.none =>
    ({ times with nextAllowedTime := some (now + waitTime) }, Option.none)
  | some nextAllowedTime =>
    if now > checkedSubOr nextAllowedTime checkTolerance then
      ({ times with nextAllowedTime := some (now + waitTime) }, Option.none)
    else
      let newClaimedTime :=
        match times.claimedNextTime with
        | some claimedNextTime =>
          if claimedNextTime > nextAllowedTime then claimedNextTime + waitTime
          else nextAllowedTime
        | Option.none => nextAllowedTime
      ({ times with claimedNextTime := some newClaimedTime },
        some (now - newClaimedTime))

/-- Embedding of `Limiter::allow_next_fetch_in` (limiter.rs lines 69-76):
force the next allowance to `now + duration` and drop any claimed slot. -/
def allowNextFetchIn (duration : Nat) (_times : LimiterTimes) (now : Nat) :
    LimiterTimes :=
  { nextAllowedTime := some (now + duration), claimedNextTime := Option.none }

/-- The metadata-provider limiter spacing (brainz.rs line 12): 1500 ms. -/
def brainzWaitTime : Nat := 1500

/-- The `RATE_LIMIT_WAIT` back-off constant (brainz.rs line 13): 10 s. -/
def rateLimitWait : Nat := 10000

/-! ## Metadata resolver (`myousync/src/brainz.rs`) -/

/-- Query term (`brainz.rs`, `QTerm`). -/
inductive QTerm where
  | none
  | exact (s : String)
  | fuzzy (s : String)
deriving DecidableEq, Repr

/-- Embedding of `QTerm::get_text`. -/
def QTerm.getText : QTerm → Option String
  | .none => Option.none
  | .exact s => some s
  | .fuzzy s => some s

/-- Embedding of `QTerm::exact_option`. -/
def QTerm.exactOption : Option String → QTerm
  | some s => .exact s
  | Option.none => .none

/-- Resolver input (`brainz.rs`, `BrainzMultiSearch`). -/
structure BrainzMultiSearch where
  trackid : Option String
  title : String
  artist : Option String
  album : Option String
deriving DecidableEq, Repr

/-- Resolver output (`brainz.rs`, `BrainzMetadata`). -/
structure BrainzMetadata where
  brainzRecordingId : Option String
  title : String
  artist : List String
  album : Option String
deriving DecidableEq, Repr

/-- One candidate search (`brainz.rs`, `RecordingSearch`). -/
structure RecordingSearch where
  title : QTerm
  artist : List QTerm
  album : QTerm
deriving DecidableEq, Repr

/-- Error taxonomy of the resolver (`brainz.rs`, `BrainzError`). -/
inductive BrainzError where
  | connectionError
  | emptyQuery
  | jsonError
  | emptyResult
deriving DecidableEq, Repr

/-- Word character of the `regex` crate's `\b` boundary, at ASCII
precision: letters, digits and underscore. -/
def isWordChar (c : Char) : Bool :=
  c.isAlphanum || c == '_'

/-- Leftmost-first match attempt of the artist-splitting regular expression
`\bft\.?|\bfeat\.?|;|&` (brainz.rs line 15) at one position.  `prev` is the
character preceding the position (`none` at the start of the haystack); the
result is the length of the branch that matches there, branches tried in
source order, `\.?` matched greedily. -/
def regexMatchLen (prev : Option Char) (cs : List Char) : Option Nat :=
  let boundary : Bool :=
    match prev with
    | Option.none => true
    | some p => !isWordChar p
  if boundary && ['f', 't'].isPrefixOf cs then
    some (2 + (if (cs.drop 2).head? = some '.' then 1 else 0))
  else if boundary && ['f', 'e', 'a', 't'].isPrefixOf cs then
    some (4 + (if (cs.drop 4).head? = some '.' then 1 else 0))
  else if cs.head? = some ';' then some 1
  else if cs.head? = some '&' then some 1
  else Option.none

/-- Scanner for `Regex::split`: walk the haystack, cutting at each
non-overlapping leftmost match of the artist-splitting regex.  `prev` is the
character before the current position, `acc` the current piece reversed.
Every step consumes at least one character, so fuel equal to the haystack
length makes the zero-fuel branch coincide with the empty-haystack one. -/
def regexSplitGo : Nat → Option Char → List Char → List Char → List String
  | 0, _, acc, _ => [String.mk acc.reverse]
  | _ + 1, _, acc, [] => [String.mk acc.reverse]
  | fuel + 1, prev, acc, c :: rest =>
    match regexMatchLen prev (c :: rest) with
    | some len =>
      String.mk acc.reverse ::
        regexSplitGo fuel (some ((c :: rest).getD (len - 1) c)) []
          (rest.drop (len - 1))
    | Option.none => regexSplitGo fuel (some c) (c :: acc) rest

/-- Removal of the bracket characters `( ) [ ] 【 】`, modelling the
`str::replace([...], "")` call in `split_artists`. -/
def stripBracketChars (s : String) : String :=
  String.mk (s.toList.filter (fun c =>
    !(c == '(' || c == ')' || c == '[' || c == ']' || c == '【' || c == '】')))

/-- Embedding of `brainz.rs::split_artists` (lines 193-199): split on the
regex, then trim each piece and strip bracket punctuation. -/
def splitArtists (artist : String) : List String :=
  (regexSplitGo artist.toList.length Option.none [] artist.toList).map
    (fun s => stripBracketChars (strTrim s))

/-- The two native-music-info candidates of `analyze_brainz` (brainz.rs
lines 118-136), built when artist or album is present: the artist field is
split on commas and trimmed. -/
def nativeSearches (dlp : BrainzMultiSearch) : List RecordingSearch :=
  if dlp.album.isSome || dlp.artist.isSome then
    let artistVec : List QTerm :=
      dlp.artist.toList.flatMap
        (fun a => (strSplitOn a ",").map (fun s => QTerm.exact (strTrim s)))
    [{ title := QTerm.exact dlp.title, artist := artistVec,
       album := QTerm.exactOption dlp.album },
     { title := QTerm.exact dlp.title, artist := artistVec,
       album := QTerm.none }]
  else []

/-- The two hyphen-split candidates (brainz.rs lines 138-152), built when
the title contains `" - "`; the source indexes `parts[0]`/`parts[1]` of
`title.split(" - ")`, which the guard keeps in bounds. -/
def hyphenSearches (dlp : BrainzMultiSearch) : List RecordingSearch :=
  if strContains dlp.title " - " then
    let parts := strSplitOn dlp.title " - "
    [{ title := QTerm.exact (parts.getD 1 ""),
       artist := (splitArtists (parts.getD 0 "")).map QTerm.exact,
       album := QTerm.none },
     { title := QTerm.exact (parts.getD 0 ""),
       artist := (splitArtists (parts.getD 1 "")).map QTerm.exact,
       album := QTerm.none }]
  else []

/-- Candidate-search construction of `analyze_brainz` (brainz.rs lines
116-152): native-music-info candidates first, hyphen-split candidates
after. -/
def buildSearches (dlp : BrainzMultiSearch) : List RecordingSearch :=
  nativeSearches dlp ++ hyphenSearches dlp

/-- The Nightcore predicate of `analyze_brainz` (lines 156-161): some artist
term whose upper-cased text contains `"NIGHTCORE"`. -/
def hasNightcoreArtist (recSearch : RecordingSearch) : Bool :=
  recSearch.artist.any (fun ff =>
    match ff.getText with
    | some a => strContains (strToUpper a) "NIGHTCORE"
    | Option.none => false)

instance {ε α : Type} [DecidableEq ε] [DecidableEq α] :
    DecidableEq (Except ε α)
  | .ok a, .ok b =>
    if h : a = b then .isTrue (by rw [h])
    else .isFalse (fun hh => h (Except.ok.inj hh))
  | .ok _, .error _ => .isFalse (fun hh => Except.noConfusion hh)
  | .error _, .ok _ => .isFalse (fun hh => Except.noConfusion hh)
  | .error a, .error b =>
    if h : a = b then .isTrue (by rw [h])
    else .isFalse (fun hh => h (Except.error.inj hh))

/-- Result of one resolver run together with the remote interactions it
performed: the by-recording-id fetches and the candidate-search fetches, in
order. -/
structure ResolverTrace where
  result : Except BrainzError BrainzMetadata
  fetchedById : List String
  fetchedSearches : List RecordingSearch
deriving DecidableEq, Repr

/-- The candidate loop of `analyze_brainz` (lines 170-187): try each
candidate in order through `fetch_recordings`, first success wins, all
failures collapse to `EmptyResult`. -/
def tryCandidates
    (fetchRecordings : RecordingSearch → Except BrainzError BrainzMetadata) :
    List RecordingSearch → ResolverTrace
  | [] => { result := .error .emptyResult, fetchedById := [],
            fetchedSearches := [] }
  | searchOpt :: rest =>
    match fetchRecordings searchOpt with
    | .ok result =>
      { result := .ok result, fetchedById := [], fetchedSearches := [searchOpt] }
    | .error _ =>
      let t := tryCandidates fetchRecordings rest
      { t with fetchedSearches := searchOpt :: t.fetchedSearches }

/-- Embedding of `brainz.rs::analyze_brainz` (lines 111-191).  The remote
(`fetch_recordings_by_id` and `fetch_recordings`, both cache-backed in the
source) is passed as oracles; the trace records every invocation. -/
def analyzeBrainz
    (fetchRecordingsById : String → Except BrainzError BrainzMetadata)
    (fetchRecordings : RecordingSearch → Except BrainzError BrainzMetadata)
    (dlp : BrainzMultiSearch) : ResolverTrace :=
  match dlp.trackid with
  | some trackid =>
    { result := fetchRecordingsById trackid, fetchedById := [trackid],
      fetchedSearches := [] }
  | Option.none =>
    let search := buildSearches dlp
    match search.find? hasNightcoreArtist with
    | some ncMatch =>
      { result := .ok { brainzRecordingId := Option.none,
                        title := (ncMatch.title.getText).getD dlp.title,
                        artist := ["Nightcore"],
                        album := some "Nightcore" },
        fetchedById := [], fetchedSearches := [] }
    | Option.none => tryCandidates fetchRecordings search

/-! ## Persistent item state (`myousync/src/dbdata/models.rs`) -/

/-- Item state (`models.rs`, `FetchStatus`; SQL codes 0-5). -/
inductive FetchStatus where
  | notFetched
  | fetched
  | fetchError
  | brainzError
  | categorized
  | disabled
deriving DecidableEq, Repr

/-- Row of the `status` table (`models.rs`, `VideoStatus`).  Wall-clock
times (`SqlSystemTime`) are seconds since the epoch as `Nat`. -/
structure VideoStatus where
  videoId : String
  fetchStatus : FetchStatus
  fetchTime : Option Nat
  lastUpdate : Option Nat
  lastQuery : Option BrainzMultiSearch
  lastResult : Option BrainzMetadata
  lastError : Option String
  overrideQuery : Option BrainzMultiSearch
  overrideResult : Option BrainzMetadata
  jellyId : Option String
deriving DecidableEq, Repr

/-- The `thiserror` display text of each resolver error (brainz.rs
lines 17-27), as stored into `last_error`. -/
def BrainzError.toText : BrainzError → String
  | .connectionError => ""
  | .emptyQuery => "No query parameters provided"
  | .jsonError => "Failed to parse response"
  | .emptyResult => "No results found"

/-- Parsed extractor metadata (`ytdlp.rs`, `YtDlpResponse`). -/
structure YtDlpResponse where
  id : String
  title : String
  channel : String
  duration : Nat
  album : Option String
  artist : Option String
  track : Option String
deriving DecidableEq, Repr

/-! ## Tagger metadata step (`myousync/src/main.rs`, `sync_playlist_item`) -/

/-- Embedding of the metadata step of `sync_playlist_item` (main.rs lines
478-511), reached with extractor metadata `dlpFile` in hand.  `analyze`
abstracts `brainz::analyze_brainz`; `now` is the wall clock used by
`push_update`'s `update_now`.  Returns the item row after the step, the
resolver output (the parsed `override_result` when present), and the list
of inputs `analyze` was invoked on.  The row overrides are read back from
the row itself (`get_track_result_override` / `get_track_query_override`
read the same `status` row; JSON round-tripping is identity). -/
def metadataStep (analyze : BrainzMultiSearch → Except BrainzError BrainzMetadata)
    (now : Nat) (dlpFile : YtDlpResponse) (status : VideoStatus) :
    VideoStatus × Except BrainzError BrainzMetadata × List BrainzMultiSearch :=
  match status.overrideResult with
  | some overrideResult =>
    ({ status with lastUpdate := some now }, .ok overrideResult, [])
  | Option.none =>
    let queryStatus : BrainzMultiSearch × VideoStatus :=
      match status.overrideQuery with
      | some overrideQuery => (overrideQuery, status)
      | Option.none =>
        let query : BrainzMultiSearch :=
          { trackid := Option.none,
            title := dlpFile.track.getD dlpFile.title,
            artist := dlpFile.artist,
            album := dlpFile.album }
        (query, { status with lastQuery := some query })
    match analyze queryStatus.1 with
    | .ok res =>
      ({ queryStatus.2 with lastResult := some res, lastUpdate := some now },
        .ok res, [queryStatus.1])
    | .error err =>
      ({ queryStatus.2 with lastResult := Option.none,
                            lastError := some err.toText,
                            fetchStatus := .brainzError,
                            lastUpdate := some now },
        .error err, [queryStatus.1])

/-- The automatically-derived resolver query of the metadata step (main.rs
lines 487-492). -/
def derivedQuery (dlpFile : YtDlpResponse) : BrainzMultiSearch :=
  { trackid := Option.none,
    title := dlpFile.track.getD dlpFile.title,
    artist := dlpFile.artist,
    album := dlpFile.album }

/-! ## Writes to a `status` row (`dbdata/mod.rs`, `main.rs`) -/

/-- One persisted write to a single `status` row:
`modify` is `DbState::modify_video_status` (mod.rs lines 340-356, the
functor returning the new row and whether to save), `pushUpdate` is
`MsState::push_update` (main.rs lines 749-753), `reindex` is the per-row
effect of `DbState::set_videos_reindex` (mod.rs lines 453-466, the SQL
`UPDATE status SET fetch_status = 1 WHERE fetch_status = 4`), and
`setJelly` is `DbState::set_jellyfin_id` (mod.rs lines 562-571, the SQL
`UPDATE status SET jelly_id = ?1`). -/
inductive DbWrite where
  | modify (f : VideoStatus → VideoStatus × Bool)
  | pushUpdate (f : VideoStatus → VideoStatus)
  | reindex
  | setJelly (jellyId : String)

/-- Effect of one write on the row at wall-clock `now`.  `modify` and
`pushUpdate` call `update_now` before persisting; the two SQL updates touch
only the columns named in their statements. -/
def applyWrite (op : DbWrite) (now : Nat) (v : VideoStatus) : VideoStatus :=
  match op with
  | .modify f =>
    let fv := f v
    if fv.2 then { fv.1 with lastUpdate := some now } else v
  | .pushUpdate f => { f v with lastUpdate := some now }
  | .reindex =>
    if v.fetchStatus = FetchStatus.categorized then
      { v with fetchStatus := .fetched }
    else v
  | .setJelly j => { v with jellyId := some j }

/-- The successive row states produced by a timed sequence of writes. -/
def writeTrace : List (DbWrite × Nat) → VideoStatus → List VideoStatus
  | [], _ => []
  | (op, t) :: rest, v =>
    let v1 := applyWrite op t v
    v1 :: writeTrace rest v1

/-- Ordering on optional wall-clock values: an absent `last_update` is
below everything. -/
def optTimeLe : Option Nat → Option Nat → Bool
  | Option.none, _ => true
  | some _, Option.none => false
  | some a, some b => a ≤ b

/-! ## Operator delete command (`main.rs` delete route) -/

/-- The slice of database state the delete command touches for one video:
its `status` row and its `ytdata` cache row. -/
structure DeleteDbState where
  status : Option VideoStatus
  ytdata : Option String
deriving DecidableEq, Repr

/-- Embedding of the `/video/{video}/delete` route closure (main.rs lines
208-234) composed through `MsState::push_override` (main.rs lines 737-742)
and `DbState::modify_video_status` (mod.rs lines 340-356).  `fileFound`
abstracts `find_file` locating a library file, `removeOk` whether
`musicfiles::delete_file` succeeded on it.  The second component is the row
persisted and published on the notification bus (`none`: the functor
returned `false`, so nothing was persisted and no notification was sent;
the in-memory `last_error` assignment in that branch is dropped with the
modified copy).  `delete_yt_data` runs first inside the functor, so the
`ytdata` row is removed whenever the `status` row exists. -/
def deleteCommand (db : DeleteDbState) (fileFound removeOk : Bool)
    (now : Nat) : DeleteDbState × Option VideoStatus :=
  match db.status with
  | Option.none => (db, Option.none)
  | some v =>
    let db1 : DeleteDbState := { db with ytdata := Option.none }
    if fileFound && !removeOk then
      (db1, Option.none)
    else
      let v1 : VideoStatus :=
        { v with fetchStatus := .disabled, lastUpdate := some now }
      ({ db1 with status := some v1 }, some v1)

/-! ## Library manager paths (`myousync/src/musicfiles.rs`, `main.rs`)

Filesystem paths are lists of components; Rust `Path::starts_with` and
path equality compare component-wise. -/

/-- A filesystem path as its list of components. -/
abbrev FsPath := List String

/-- The configured base paths (`main.rs`, `MsPaths`). -/
structure MsPaths where
  music : FsPath
  temp : FsPath
  migrate : Option FsPath
deriving DecidableEq, Repr

/-- Embedding of `MsPaths::get_base_paths` (main.rs lines 687-693). -/
def getBasePaths (s : MsPaths) : List FsPath :=
  [s.music, s.temp] ++ s.migrate.toList

/-- Embedding of `MsPaths::is_sub_file` (main.rs lines 696-700): the path
starts with some base path and differs from it. -/
def isSubFile (s : MsPaths) (path : FsPath) : Bool :=
  (getBasePaths s).any (fun p => p.isPrefixOf path && path != p)

/-- Rust `Path::parent`: `none` at a root, otherwise the path without its
last component. -/
def parentDir : FsPath → Option FsPath
  | [] => Option.none
  | p => some p.dropLast

/-- The `while let Some(p) = parent` loop of `cleanup_directory`
(musicfiles.rs lines 167-184).  `readDirCount` abstracts
`read_dir().map(|r| r.count())` (with `none` for an `Err`), `removeDirOk`
whether `fs::remove_dir` succeeded.  Returns the directories actually
removed, innermost first.  Each iteration strips one path component, so
fuel one above the starting path length is never exhausted; the zero-fuel
branch mirrors the loop exit at an empty parent chain. -/
def cleanupLoop (s : MsPaths) (readDirCount : FsPath → Option Nat)
    (removeDirOk : FsPath → Bool) : Nat → FsPath → List FsPath
  | 0, _ => []
  | fuel + 1, p =>
    if isSubFile s p then
      match readDirCount p with
      | some 0 =>
        if removeDirOk p then
          p ::
            (match parentDir p with
             | some q => cleanupLoop s readDirCount removeDirOk fuel q
             | Option.none => [])
        else []
      | _ => []
    else []

/-- Embedding of `musicfiles.rs::cleanup_directory` (lines 162-185): bail
out unless the starting file is below a base, then prune upward from its
parent. -/
def cleanupDirectory (s : MsPaths) (readDirCount : FsPath → Option Nat)
    (removeDirOk : FsPath → Bool) (file : FsPath) : List FsPath :=
  if isSubFile s file then
    match parentDir file with
    | some p => cleanupLoop s readDirCount removeDirOk (p.length + 1) p
    | Option.none => []
  else []

/-- Embedding of `musicfiles.rs::delete_file` (lines 134-146).
`removeFileOk` abstracts whether `fs::remove_file` succeeded.  On success
the result carries the directories pruned by `cleanup_directory`. -/
def deleteFile (s : MsPaths) (removeFileOk : Bool)
    (readDirCount : FsPath → Option Nat) (removeDirOk : FsPath → Bool)
    (path : FsPath) : Except String (List FsPath) :=
  if !isSubFile s path then .error "Not in music or temp directory"
  else if removeFileOk then
    .ok (cleanupDirectory s readDirCount removeDirOk path)
  else .error "Error deleting file"

/-! ## Decimal digits

Executable decimal printing and parsing used to model Rust's zero-padded
`format!("{:04}-{:02}-{:02}", ..)` date strings and their re-parsing. -/

/-- Decimal digits of `n`, least significant first; `fuel` bounds the
number of divisions by ten (`n` itself always suffices). -/
def natToDigitsGo : Nat → Nat → List Char
  | 0, n => [Nat.digitChar n]
  | fuel + 1, n =>
    if n < 10 then [Nat.digitChar n]
    else Nat.digitChar (n % 10) :: natToDigitsGo fuel (n / 10)

/-- Decimal digits of `n`, most significant first. -/
def natToDigits (n : Nat) : List Char :=
  (natToDigitsGo n n).reverse

/-- Zero-padded decimal rendering of width `width`, as Rust `{:0w}`. -/
def padDigits (width n : Nat) : List Char :=
  let ds := natToDigits n
  List.replicate (width - ds.length) '0' ++ ds

/-- Numeric value of a decimal digit character. -/
def charToDigit (c : Char) : Option Nat :=
  if '0' ≤ c ∧ c ≤ '9' then some (c.toNat - '0'.toNat) else Option.none

/-- Horner-scheme decimal parser continuing from accumulator `acc`. -/
def digitsToNatGo (acc : Nat) : List Char → Option Nat
  | [] => some acc
  | c :: cs =>
    match charToDigit c with
    | some d => digitsToNatGo (acc * 10 + d) cs
    | Option.none => Option.none

/-- Decimal parser; `none` on the empty string or a non-digit. -/
def digitsToNat (cs : List Char) : Option Nat :=
  if cs.isEmpty then Option.none else digitsToNatGo 0 cs

/-- Split a character list at every occurrence of `sep`. -/
def splitOnCharList (sep : Char) : List Char → List (List Char)
  | [] => [[]]
  | c :: rest =>
    match splitOnCharList sep rest with
    | [] => [[]]
    | piece :: pieces =>
      if c = sep then [] :: piece :: pieces else (c :: piece) :: pieces

/-! ## Tag abstraction (`multitag/src/lib.rs`) -/

/-- Date value of the tag layer (`multitag/src/data.rs`, `Timestamp`):
a year with optional month and day. -/
structure Timestamp where
  year : Nat
  month : Option Nat
  day : Option Nat
deriving DecidableEq, Repr

/-- The `format!("{:04}-{:02}-{:02}", year, month.unwrap_or_default(),
day.unwrap_or_default())` date string written by the text-valued backends
(lib.rs `set_date`). -/
def Timestamp.format (t : Timestamp) : String :=
  String.mk (padDigits 4 t.year ++ '-' :: padDigits 2 (t.month.getD 0) ++
    '-' :: padDigits 2 (t.day.getD 0))

/-- Modelled from the spec: `multitag/src/data.rs` (the `Timestamp`
`FromStr` instance) is not under `src/`; spec §4.3 describes the value as
`{year, optional month, optional day}` formatted as `YYYY-MM-DD`, so the
parser accepts one to three dash-separated decimal fields. -/
def Timestamp.fromStr (s : String) : Option Timestamp :=
  match (splitOnCharList '-' s.toList).map digitsToNat with
  | [some y] => some ⟨y, Option.none, Option.none⟩
  | [some y, some m] => some ⟨y, some m, Option.none⟩
  | [some y, some m, some d] => some ⟨y, some m, some d⟩
  | _ => Option.none

/-! ### Key-to-values comment maps

The Vorbis comment block of `metaflac`, the `com.apple.iTunes` freeform
atoms of `mp4ameta`, and the comment maps of `opusmeta`/`oggmeta` are all
key → list-of-values maps; they are modelled as association lists with the
usual map semantics (each operation keeps keys unique). -/

/-- Key-to-values map backing a comment block. -/
abbrev CommentMap := List (String × List String)

/-- Values stored under `k`, `none` when the key is absent. -/
def cmGet (k : String) (m : CommentMap) : Option (List String) :=
  (m.find? (fun e => e.1 == k)).map (fun e => e.2)

/-- Replace all values under `k` by `vs` (map insert). -/
def cmSet (k : String) (vs : List String) (m : CommentMap) : CommentMap :=
  m.filter (fun e => e.1 != k) ++ [(k, vs)]

/-- Drop the entry of `k` (map remove). -/
def cmRemove (k : String) (m : CommentMap) : CommentMap :=
  m.filter (fun e => e.1 != k)

/-- Append one value under `k`, creating the entry when absent
(`entry(k).or_default().push(v)`). -/
def cmAppend (k v : String) (m : CommentMap) : CommentMap :=
  cmSet k ((cmGet k m).getD [] ++ [v]) m

/-- ID3 tag content (`id3::Tag`) restricted to the frames the tag layer
touches for the verified subset: the text frames behind
`title/artist/album/album_artist`, the released-date timestamp, the
extended-text (`TXXX`) frames as description-value pairs, and the
unique-file-identifier (`UFID`) frames as owner-identifier pairs.
`id3::Tag::add_frame` replaces any conflicting frame (same identity: same
description for `TXXX`, same owner for `UFID`) before appending. -/
structure Id3Store where
  title : Option String
  artist : Option String
  album : Option String
  albumArtist : Option String
  dateReleased : Option Timestamp
  extendedTexts : List (String × String)
  ufids : List (String × String)
deriving DecidableEq, Repr

/-- FLAC tag content (`metaflac::Tag`): the Vorbis comment block. -/
structure FlacStore where
  comments : CommentMap
deriving DecidableEq, Repr

/-- MP4 tag content (`mp4ameta::Tag`) restricted to the atoms the tag layer
touches: the standard title/artist/album/album-artist atoms, the freeform
`com.apple.iTunes` atoms as a key-to-values map, and the UTF-8 data under
the `©day` fourcc (`DATE_FOURCC`). -/
structure Mp4Store where
  title : Option String
  artist : Option String
  album : Option String
  albumArtist : Option String
  freeform : CommentMap
  dateData : Option String
deriving DecidableEq, Repr

/-- Opus tag content (`opusmeta::Tag`): its comment map. -/
structure OpusStore where
  comments : CommentMap
deriving DecidableEq, Repr

/-- Ogg tag content (`oggmeta::Tag`): its comment map. -/
structure OggStore where
  comments : CommentMap
deriving DecidableEq, Repr

/-- The closed five-backend sum (`lib.rs`, `enum Tag`).  Picture and lyric
handling lies outside the modelled fragment (no verified property touches
it); without a cover picture the source's `set_album_info` always returns
`Ok`, so it is total here. -/
inductive Tag where
  | id3Tag (inner : Id3Store)
  | vorbisFlacTag (inner : FlacStore)
  | mp4Tag (inner : Mp4Store)
  | opusTag (inner : OpusStore)
  | oggTag (inner : OggStore)
deriving DecidableEq, Repr

/-- Album information (`data.rs`, `Album`) without the cover picture. -/
structure Album where
  title : Option String
  artist : Option String
deriving DecidableEq, Repr

/-- Embedding of `Tag::title` (lib.rs lines 492-504). -/
def Tag.title : Tag → Option String
  | .id3Tag i => i.title
  | .vorbisFlacTag i => (cmGet "TITLE" i.comments).bind List.head?
  | .mp4Tag i => i.title
  | .opusTag i => (cmGet "TITLE" i.comments).bind List.head?
  | .oggTag i => (cmGet "TITLE" i.comments).bind List.head?

/-- Embedding of `Tag::set_title` (lib.rs lines 507-519).  The Opus and Ogg
arms append (`add_one` / `entry(..).push`) without clearing. -/
def Tag.setTitle : Tag → String → Tag
  | .id3Tag i, t => .id3Tag { i with title := some t }
  | .vorbisFlacTag i, t =>
    .vorbisFlacTag { i with comments := cmSet "TITLE" [t] i.comments }
  | .mp4Tag i, t => .mp4Tag { i with title := some t }
  | .opusTag i, t =>
    .opusTag { i with comments := cmAppend "TITLE" t i.comments }
  | .oggTag i, t =>
    .oggTag { i with comments := cmAppend "TITLE" t i.comments }

/-- Embedding of `Tag::remove_title` (lib.rs lines 522-534). -/
def Tag.removeTitle : Tag → Tag
  | .id3Tag i => .id3Tag { i with title := Option.none }
  | .vorbisFlacTag i =>
    .vorbisFlacTag { i with comments := cmRemove "TITLE" i.comments }
  | .mp4Tag i => .mp4Tag { i with title := Option.none }
  | .opusTag i => .opusTag { i with comments := cmRemove "TITLE" i.comments }
  | .oggTag i => .oggTag { i with comments := cmRemove "TITLE" i.comments }

/-- Embedding of `Tag::artist` (lib.rs lines 539-553): multi-valued
backends join with `"; "`; the FLAC arm drops an empty join. -/
def Tag.artist : Tag → Option String
  | .id3Tag i => i.artist
  | .vorbisFlacTag i =>
    match cmGet "ARTIST" i.comments with
    | some vs =>
      let joined := String.intercalate "; " vs
      if joined = "" then Option.none else some joined
    | Option.none => Option.none
  | .mp4Tag i => i.artist
  | .opusTag i => (cmGet "ARTIST" i.comments).map (String.intercalate "; ")
  | .oggTag i => (cmGet "ARTIST" i.comments).map (String.intercalate "; ")

/-- Embedding of `Tag::set_artist` (lib.rs lines 556-570). -/
def Tag.setArtist : Tag → String → Tag
  | .id3Tag i, a => .id3Tag { i with artist := some a }
  | .vorbisFlacTag i, a =>
    .vorbisFlacTag { i with comments := cmSet "ARTIST" [a] i.comments }
  | .mp4Tag i, a => .mp4Tag { i with artist := some a }
  | .opusTag i, a =>
    let c := cmAppend "ARTIST" a (cmRemove "ARTIST" i.comments)
    .opusTag { i with comments := c }
  | .oggTag i, a =>
    let c := cmSet "ARTIST" [a] (cmRemove "ARTIST" i.comments)
    .oggTag { i with comments := c }

/-- Embedding of `Tag::remove_artist` (lib.rs lines 573-585). -/
def Tag.removeArtist : Tag → Tag
  | .id3Tag i => .id3Tag { i with artist := Option.none }
  | .vorbisFlacTag i =>
    .vorbisFlacTag { i with comments := cmRemove "ARTIST" i.comments }
  | .mp4Tag i => .mp4Tag { i with artist := Option.none }
  | .opusTag i => .opusTag { i with comments := cmRemove "ARTIST" i.comments }
  | .oggTag i => .oggTag { i with comments := cmRemove "ARTIST" i.comments }

/-- Embedding of `Tag::date` (lib.rs lines 591-612): the ID3 backend holds
a structured timestamp, the others parse the stored text. -/
def Tag.date : Tag → Option Timestamp
  | .id3Tag i => i.dateReleased
  | .vorbisFlacTag i =>
    ((cmGet "DATE" i.comments).bind List.head?).bind Timestamp.fromStr
  | .mp4Tag i => i.dateData.bind Timestamp.fromStr
  | .opusTag i =>
    ((cmGet "DATE" i.comments).bind List.head?).bind Timestamp.fromStr
  | .oggTag i =>
    ((cmGet "DATE" i.comments).bind List.head?).bind Timestamp.fromStr

/-- Embedding of `Tag::set_date` (lib.rs lines 617-663). -/
def Tag.setDate : Tag → Timestamp → Tag
  | .id3Tag i, ts => .id3Tag { i with dateReleased := some ts }
  | .vorbisFlacTag i, ts =>
    .vorbisFlacTag { i with comments := cmSet "DATE" [ts.format] i.comments }
  | .mp4Tag i, ts => .mp4Tag { i with dateData := some ts.format }
  | .opusTag i, ts =>
    let c := cmAppend "DATE" ts.format (cmRemove "DATE" i.comments)
    .opusTag { i with comments := c }
  | .oggTag i, ts =>
    let c := cmSet "DATE" [ts.format] (cmRemove "DATE" i.comments)
    .oggTag { i with comments := c }

/-- Embedding of `Tag::remove_date` (lib.rs lines 668-680). -/
def Tag.removeDate : Tag → Tag
  | .id3Tag i => .id3Tag { i with dateReleased := Option.none }
  | .vorbisFlacTag i =>
    .vorbisFlacTag { i with comments := cmRemove "DATE" i.comments }
  | .mp4Tag i => .mp4Tag { i with dateData := Option.none }
  | .opusTag i => .opusTag { i with comments := cmRemove "DATE" i.comments }
  | .oggTag i => .oggTag { i with comments := cmRemove "DATE" i.comments }

/-- Embedding of `Tag::get_album_info` (lib.rs lines 280-360) without the
cover picture.  The Ogg arm propagates `?` on both map lookups, so an
absent `album` or `album_artist` key yields `none` for the whole record. -/
def Tag.getAlbumInfo : Tag → Option Album
  | .id3Tag i => some ⟨i.album, i.albumArtist⟩
  | .vorbisFlacTag i =>
    some ⟨(cmGet "ALBUM" i.comments).bind List.head?,
      (cmGet "ALBUM_ARTIST" i.comments).bind List.head?⟩
  | .mp4Tag i => some ⟨i.album, i.albumArtist⟩
  | .opusTag i =>
    some ⟨(cmGet "ALBUM" i.comments).bind List.head?,
      ((cmGet "ALBUM_ARTIST" i.comments).bind List.head?).orElse
        (fun _ => (cmGet "ALBUMARTIST" i.comments).bind List.head?)⟩
  | .oggTag i =>
    match cmGet "album" i.comments, cmGet "album_artist" i.comments with
    | some av, some bv => some ⟨av.head?, bv.head?⟩
    | _, _ => Option.none

/-- Embedding of `Tag::set_album_info` (lib.rs lines 366-452) without the
cover picture.  FLAC duplicates the album artist across the three legacy
keys; Opus appends (`add_one`) instead of replacing; Ogg uses lower-case
keys. -/
def Tag.setAlbumInfo : Tag → Album → Tag
  | .id3Tag i, alb =>
    .id3Tag { i with
      album := match alb.title with | some t => some t | Option.none => i.album,
      albumArtist :=
        match alb.artist with | some a => some a | Option.none => i.albumArtist }
  | .vorbisFlacTag i, alb =>
    let c1 := match alb.title with
      | some t => cmSet "ALBUM" [t] i.comments
      | Option.none => i.comments
    let c2 := match alb.artist with
      | some a =>
        cmSet "ALBUM_ARTIST" [a] (cmSet "ALBUM ARTIST" [a]
          (cmSet "ALBUMARTIST" [a] c1))
      | Option.none => c1
    .vorbisFlacTag { i with comments := c2 }
  | .mp4Tag i, alb =>
    .mp4Tag { i with
      album := match alb.title with | some t => some t | Option.none => i.album,
      albumArtist :=
        match alb.artist with | some a => some a | Option.none => i.albumArtist }
  | .opusTag i, alb =>
    let c1 := match alb.title with
      | some t => cmAppend "ALBUM" t i.comments
      | Option.none => i.comments
    let c2 := match alb.artist with
      | some a => cmAppend "ALBUM_ARTIST" a (cmAppend "ALBUMARTIST" a c1)
      | Option.none => c1
    .opusTag { i with comments := c2 }
  | .oggTag i, alb =>
    let c1 := match alb.title with
      | some t => cmSet "album" [t] i.comments
      | Option.none => i.comments
    let c2 := match alb.artist with
      | some a => cmSet "album_artist" [a] c1
      | Option.none => c1
    .oggTag { i with comments := c2 }

/-- Embedding of `Tag::remove_all_album_info` (lib.rs lines 455-488); the
Ogg arm removes upper-case keys although its accessors use lower-case. -/
def Tag.removeAllAlbumInfo : Tag → Tag
  | .id3Tag i =>
    .id3Tag { i with album := Option.none, albumArtist := Option.none }
  | .vorbisFlacTag i =>
    let c := cmRemove "ALBUM_ARTIST" (cmRemove "ALBUM ARTIST"
      (cmRemove "ALBUMARTIST" (cmRemove "ALBUM" i.comments)))
    .vorbisFlacTag { i with comments := c }
  | .mp4Tag i =>
    .mp4Tag { i with album := Option.none, albumArtist := Option.none }
  | .opusTag i =>
    let c := cmRemove "ALBUM_ARTIST" (cmRemove "ALBUMARTIST"
      (cmRemove "ALBUM" i.comments))
    .opusTag { i with comments := c }
  | .oggTag i =>
    let c := cmRemove "ALBUMARTIST" (cmRemove "ALBUM_ARTIST"
      (cmRemove "ALBUM" i.comments))
    .oggTag { i with comments := c }

/-- Embedding of `Tag::get_comment` (lib.rs lines 757-778).  The source
`match` has no `OggTag` arm, so the Ogg backend carries no comment
accessor; it is modelled as yielding nothing. -/
def Tag.getComment : Tag → String → Option String
  | .id3Tag i, key =>
    (i.extendedTexts.find? (fun e => e.1 == key)).map (fun e => e.2)
  | .vorbisFlacTag i, key => (cmGet key i.comments).bind List.head?
  | .mp4Tag i, key => (cmGet key i.freeform).bind List.head?
  | .opusTag i, key => (cmGet key i.comments).bind List.head?
  | .oggTag _, _ => Option.none

/-- Embedding of `Tag::add_comment` (lib.rs lines 803-835).  The ID3 arm
calls `id3::Tag::add_frame`, which replaces any existing extended-text
frame with the same description; the FLAC arm upper-cases the key
(`to_ascii_uppercase`); no `OggTag` arm exists in the source, so the
operation is undefined (`none`) on the Ogg backend. -/
def Tag.addComment : Tag → String → String → Option Tag
  | .id3Tag i, key, value =>
    let texts := i.extendedTexts.filter (fun e => e.1 != key) ++ [(key, value)]
    some (.id3Tag { i with extendedTexts := texts })
  | .vorbisFlacTag i, key, value =>
    some (.vorbisFlacTag { i with comments := cmAppend (strToUpper key) value i.comments })
  | .mp4Tag i, key, value =>
    some (.mp4Tag { i with freeform := cmAppend key value i.freeform })
  | .opusTag i, key, value =>
    some (.opusTag { i with comments := cmAppend key value i.comments })
  | .oggTag _, _, _ => Option.none

/-- Embedding of `Tag::set_comment` (lib.rs lines 781-800).  The ID3 arm
delegates to `add_comment`; no `OggTag` arm exists in the source. -/
def Tag.setComment : Tag → String → String → Option Tag
  | .id3Tag i, key, value => (Tag.id3Tag i).addComment key value
  | .vorbisFlacTag i, key, value =>
    some (.vorbisFlacTag { i with comments := cmSet key [value] i.comments })
  | .mp4Tag i, key, value =>
    some (.mp4Tag { i with freeform := cmSet key [value] i.freeform })
  | .opusTag i, key, value =>
    let c := cmSet key [value] (cmRemove key i.comments)
    some (.opusTag { i with comments := c })
  | .oggTag _, _, _ => Option.none

/-- Embedding of `Tag::remove_comment` (lib.rs lines 839-875); no `OggTag`
arm exists in the source. -/
def Tag.removeComment : Tag → String → Option String → Option Tag
  | .id3Tag i, key, val =>
    let texts := i.extendedTexts.filter (fun e =>
      !(e.1 == key && (match val with
        | some v => e.2 == v
        | Option.none => true)))
    some (.id3Tag { i with extendedTexts := texts })
  | .vorbisFlacTag i, key, val =>
    let c :=
      match val with
      | some v =>
        match cmGet key i.comments with
        | some vs => cmSet key (vs.filter (fun x => x != v)) i.comments
        | Option.none => i.comments
      | Option.none => cmRemove key i.comments
    some (.vorbisFlacTag { i with comments := c })
  | .mp4Tag i, key, val =>
    let c :=
      match val with
      | some v =>
        match cmGet key i.freeform with
        | some vs => cmSet key (vs.filter (fun x => x != v)) i.freeform
        | Option.none => i.freeform
      | Option.none => cmRemove key i.freeform
    some (.mp4Tag { i with freeform := c })
  | .opusTag i, key, val =>
    let c :=
      match val with
      | some v =>
        match cmGet key i.comments with
        | some vs =>
          let kept := vs.filter (fun x => x != v)
          if kept.isEmpty then cmRemove key i.comments
          else cmSet key kept (cmRemove key i.comments)
        | Option.none => i.comments
      | Option.none => cmRemove key i.comments
    some (.opusTag { i with comments := c })
  | .oggTag _, _, _ => Option.none

/-- Whether the tag is the Ogg backend. -/
def Tag.isOggTag : Tag → Bool
  | .oggTag _ => true
  | _ => false

/-- Whether the tag is the ID3 backend. -/
def Tag.isId3Tag : Tag → Bool
  | .id3Tag _ => true
  | _ => false

/-- Auxiliary observer: every value stored for a comment key, in order. -/
def Tag.commentValues : Tag → String → List String
  | .id3Tag i, key =>
    (i.extendedTexts.filter (fun e => e.1 == key)).map (fun e => e.2)
  | .vorbisFlacTag i, key => (cmGet key i.comments).getD []
  | .mp4Tag i, key => (cmGet key i.freeform).getD []
  | .opusTag i, key => (cmGet key i.comments).getD []
  | .oggTag _, _ => []

/-- Embedding of the format-specific musicbrainz-identifier write of
`musicfiles.rs::apply_metadata_to_file` (lines 28-50): ID3 replaces the
unique-file-identifier frame owned by `http://musicbrainz.org`, the three
comment-capable backends use `set_comment` with their conventional keys,
and the Ogg arm is `unimplemented!()` in the source (modelled `none`). -/
def setMusicbrainzId : Tag → String → Option Tag
  | .id3Tag i, brainzId =>
    let frames := i.ufids.filter (fun e => e.1 != "http://musicbrainz.org") ++
      [("http://musicbrainz.org", brainzId)]
    some (.id3Tag { i with ufids := frames })
  | .opusTag i, brainzId =>
    (Tag.opusTag i).setComment "musicbrainz_trackid" brainzId
  | .mp4Tag i, brainzId =>
    (Tag.mp4Tag i).setComment "MusicBrainz Track Id" brainzId
  | .vorbisFlacTag i, brainzId =>
    (Tag.vorbisFlacTag i).setComment "MUSICBRAINZ_TRACKID" brainzId
  | .oggTag _, _ => Option.none

/-- Auxiliary observer: read back the musicbrainz identifier through the
same per-backend channel `setMusicbrainzId` writes. -/
def getMusicbrainzId : Tag → Option String
  | .id3Tag i =>
    (i.ufids.find? (fun e => e.1 == "http://musicbrainz.org")).map
      (fun e => e.2)
  | .opusTag i => (Tag.opusTag i).getComment "musicbrainz_trackid"
  | .mp4Tag i => (Tag.mp4Tag i).getComment "MusicBrainz Track Id"
  | .vorbisFlacTag i => (Tag.vorbisFlacTag i).getComment "MUSICBRAINZ_TRACKID"
  | .oggTag _ => Option.none

/-- Writing the semantic tag subset of the round-trip property: each field
through its remove-then-set pair, the `youtube_id` comment through
`set_comment`, and the musicbrainz identifier through its format-specific
channel.  Fails (`none`) exactly where a backend lacks the operations. -/
def writeSubset (t : Tag) (title artist albumTitle albumArtist : String)
    (ts : Timestamp) (youtubeId musicbrainzId : String) : Option Tag :=
  let t1 := (t.removeTitle).setTitle title
  let t2 := (t1.removeArtist).setArtist artist
  let t3 := (t2.removeAllAlbumInfo).setAlbumInfo ⟨some albumTitle, some albumArtist⟩
  let t4 := (t3.removeDate).setDate ts
  (t4.setComment "youtube_id" youtubeId).bind
    (fun t5 => setMusicbrainzId t5 musicbrainzId)

/-! ## Helper lemmas: comment maps -/

theorem find?_filter_ne_key {β : Type} (k : String) (m : List (String × β)) :
    (m.filter (fun e => e.1 != k)).find? (fun e => e.1 == k) = Option.none := by
  rw [List.find?_eq_none]
  intro x hx
  rw [List.mem_filter] at hx
  simpa using hx.2

theorem cmGet_filter_ne (k : String) (m : CommentMap) :
    (m.filter (fun e => e.1 != k)).find? (fun e => e.1 == k) = Option.none :=
  find?_filter_ne_key k m

theorem cmGet_cmSet_self (k : String) (vs : List String) (m : CommentMap) :
    cmGet k (cmSet k vs m) = some vs := by
  unfold cmGet cmSet
  rw [List.find?_append, cmGet_filter_ne]
  simp

theorem find?_filter_of_imp {α : Type} (p q : α → Bool) (l : List α)
    (h : ∀ x, p x = true → q x = true) :
    (l.filter q).find? p = l.find? p := by
  induction l with
  | nil => rfl
  | cons e rest ih =>
    cases hq : q e with
    | true =>
      rw [List.filter_cons_of_pos hq]
      cases hp : p e with
      | true => rw [List.find?_cons_of_pos _ hp, List.find?_cons_of_pos _ hp]
      | false =>
        rw [List.find?_cons_of_neg _ (by simp [hp]),
          List.find?_cons_of_neg _ (by simp [hp]), ih]
    | false =>
      have hp : p e = false := by
        cases hpe : p e with
        | true => rw [h e hpe] at hq; cases hq
        | false => rfl
      rw [List.filter_cons_of_neg (by simp [hq]),
        List.find?_cons_of_neg _ (by simp [hp]), ih]

theorem cmGet_cmSet_ne (k j : String) (vs : List String) (m : CommentMap)
    (h : k ≠ j) : cmGet k (cmSet j vs m) = cmGet k m := by
  unfold cmGet cmSet
  rw [List.find?_append]
  have h2 : List.find? (fun e => e.1 == k) [(j, vs)] = Option.none := by
    have hjk : (j == k) = false := by simp [Ne.symm h]
    simp [List.find?, hjk]
  rw [h2]
  rw [find?_filter_of_imp (fun e => e.1 == k) (fun e => e.1 != j) m]
  · simp
  · intro x hx
    simp only [beq_iff_eq] at hx
    simp [hx, h]

theorem cmGet_cmRemove_self (k : String) (m : CommentMap) :
    cmGet k (cmRemove k m) = Option.none := by
  unfold cmGet cmRemove
  rw [cmGet_filter_ne]
  rfl

theorem cmGet_cmRemove_ne (k j : String) (m : CommentMap) (h : k ≠ j) :
    cmGet k (cmRemove j m) = cmGet k m := by
  unfold cmGet cmRemove
  rw [find?_filter_of_imp (fun e => e.1 == k) (fun e => e.1 != j) m]
  intro x hx
  simp only [beq_iff_eq] at hx
  simp [hx, h]

theorem cmGet_cmAppend_self (k v : String) (m : CommentMap) :
    cmGet k (cmAppend k v m) = some ((cmGet k m).getD [] ++ [v]) := by
  unfold cmAppend
  exact cmGet_cmSet_self k _ m

theorem cmGet_cmAppend_ne (k j v : String) (m : CommentMap) (h : k ≠ j) :
    cmGet k (cmAppend j v m) = cmGet k m := by
  unfold cmAppend
  exact cmGet_cmSet_ne k j _ m h

/-! ## C1, C2, C7: code evaluated at the failing inputs -/

/-- C1.  The spec requires `sign_in` to issue a session token exactly when
the password-hash library's `verify_password` returns OK and to reject
otherwise; the source (auth.rs lines 61-66) inverts the branch.  Evaluated
at a stored user whose hash verifies the submitted password the code
rejects with 401 `Invalid password`, and at a password failing verification
it issues the token. -/
theorem signIn_rejects_verified_password :
    signIn (fun u => if u == "alice" then some ⟨"alice", "stored-hash"⟩ else Option.none)
      (fun stored pw => stored == "stored-hash" && pw == "correct horse")
      (fun u => some ("jwt." ++ u))
      ⟨"alice", "correct horse"⟩ = .error ⟨"Invalid password", 401⟩ ∧
    signIn (fun u => if u == "alice" then some ⟨"alice", "stored-hash"⟩ else Option.none)
      (fun stored pw => stored == "stored-hash" && pw == "correct horse")
      (fun u => some ("jwt." ++ u))
      ⟨"alice", "wrong password"⟩ = .ok "jwt.alice" := by
  constructor
  · rfl
  · rfl

/-- C2.  A claim made before the allowance time must, per the claim, sleep
`claimed slot - now`; the source (limiter.rs line 66) computes
`now - new_claimed_time`, an `Instant` subtraction that saturates to zero.
At spacing 1500 ms, allowance time 10000 and `now = 100` the claimed slot
is 10000, yet the returned sleep is 0 rather than `10000 - 100 = 9900`. -/
theorem tryClaimNext_sleep_saturates_to_zero :
    (tryClaimNext brainzWaitTime ⟨some 10000, Option.none⟩ 100).2 = some 0 ∧
    ((tryClaimNext brainzWaitTime ⟨some 10000, Option.none⟩ 100).1).claimedNextTime
      = some 10000 ∧
    some 0 ≠ some ((10000 : Nat) - 100) := by
  refine ⟨rfl, rfl, ?_⟩
  decide

/-- C7.  On a 503 the source (brainz.rs lines 74-78) only sleeps the
retrying task for `RATE_LIMIT_WAIT` and then calls a limiter method that
does not exist in limiter.rs; `allow_next_fetch_in` is never invoked, so
the limiter state at the observation instant is whatever the failed call's
claim left (`next_allowed_time = claim instant + 1500 ms`).  A second
caller arriving 2000 ms after a 503 observed at instant 0 is therefore
admitted immediately (`try_claim_next` returns `none`), although
2000 ms < the required 10 s back-off. -/
theorem serverBusy_backoff_not_applied_to_limiter :
    (tryClaimNext brainzWaitTime ⟨Option.none, Option.none⟩ 0).1
      = ⟨some 1500, Option.none⟩ ∧
    (tryClaimNext brainzWaitTime
      ((tryClaimNext brainzWaitTime ⟨Option.none, Option.none⟩ 0).1) 2000).2
      = Option.none ∧
    2000 < rateLimitWait := by
  refine ⟨rfl, rfl, ?_⟩
  decide

/-! ## C3: override precedence in the tagger metadata step -/

/-- C3.  For every Item processed by the tagger pass: a present
`override_result` is used verbatim as the resolver output and the resolver
is not invoked; otherwise a present `override_query` is the resolver input
and `last_query` is untouched; only with neither override present is the
query derived from extractor metadata and recorded as `last_query`. -/
theorem metadataStep_override_precedence
    (analyze : BrainzMultiSearch → Except BrainzError BrainzMetadata)
    (now : Nat) (dlpFile : YtDlpResponse) (status : VideoStatus) :
    (∀ r, status.overrideResult = some r →
      metadataStep analyze now dlpFile status =
        ({ status with lastUpdate := some now }, .ok r, [])) ∧
    (status.overrideResult = Option.none →
      ∀ q, status.overrideQuery = some q →
        (metadataStep analyze now dlpFile status).2.2 = [q] ∧
        (metadataStep analyze now dlpFile status).1.lastQuery =
          status.lastQuery) ∧
    (status.overrideResult = Option.none →
      status.overrideQuery = Option.none →
        (metadataStep analyze now dlpFile status).2.2 =
          [derivedQuery dlpFile] ∧
        (metadataStep analyze now dlpFile status).1.lastQuery =
          some (derivedQuery dlpFile)) := by
  refine ⟨?_, ?_, ?_⟩
  · intro r hr
    simp [metadataStep, hr]
  · intro h0 q hq
    cases hres : analyze q <;> simp [metadataStep, h0, hq, hres]
  · intro h0 h1
    cases hres : analyze (derivedQuery dlpFile) <;>
      simp [metadataStep, derivedQuery, h0, h1] <;>
      simp [derivedQuery] at hres <;> simp [hres]

/-- C3 witness: the three branches exercised at concrete rows. -/
theorem metadataStep_override_precedence_witness :
    (metadataStep (fun _ => .error .emptyResult) 7
        ⟨"y1", "Title", "Chan", 100, Option.none, Option.none, Option.none⟩
        ⟨"y1", .fetched, Option.none, Option.none, Option.none, Option.none,
          Option.none, Option.none,
          some ⟨Option.none, "Over", ["OA"], Option.none⟩, Option.none⟩).2.1 =
      .ok ⟨Option.none, "Over", ["OA"], Option.none⟩ ∧
    (metadataStep (fun _ => .error .emptyResult) 7
        ⟨"y1", "Title", "Chan", 100, Option.none, Option.none, Option.none⟩
        ⟨"y1", .fetched, Option.none, Option.none, Option.none, Option.none,
          Option.none, some ⟨Option.none, "Q", some "QA", Option.none⟩,
          Option.none, Option.none⟩).2.2 =
      [⟨Option.none, "Q", some "QA", Option.none⟩] ∧
    (metadataStep (fun _ => .error .emptyResult) 7
        ⟨"y1", "Title", "Chan", 100, Option.none, Option.none, Option.none⟩
        ⟨"y1", .fetched, Option.none, Option.none, Option.none, Option.none,
          Option.none, Option.none, Option.none, Option.none⟩).1.lastQuery =
      some ⟨Option.none, "Title", Option.none, Option.none⟩ := by
  refine ⟨?_, ?_, ?_⟩
  · exact congrArg (fun p => p.2.1)
      ((metadataStep_override_precedence (fun _ => .error .emptyResult) 7
        ⟨"y1", "Title", "Chan", 100, Option.none, Option.none, Option.none⟩
        ⟨"y1", .fetched, Option.none, Option.none, Option.none, Option.none,
          Option.none, Option.none,
          some ⟨Option.none, "Over", ["OA"], Option.none⟩, Option.none⟩).1
        ⟨Option.none, "Over", ["OA"], Option.none⟩ rfl)
  · exact ((metadataStep_override_precedence (fun _ => .error .emptyResult) 7
      ⟨"y1", "Title", "Chan", 100, Option.none, Option.none, Option.none⟩
      ⟨"y1", .fetched, Option.none, Option.none, Option.none, Option.none,
        Option.none, some ⟨Option.none, "Q", some "QA", Option.none⟩,
        Option.none, Option.none⟩).2.1 rfl
      ⟨Option.none, "Q", some "QA", Option.none⟩ rfl).1
  · exact ((metadataStep_override_precedence (fun _ => .error .emptyResult) 7
      ⟨"y1", "Title", "Chan", 100, Option.none, Option.none, Option.none⟩
      ⟨"y1", .fetched, Option.none, Option.none, Option.none, Option.none,
        Option.none, Option.none, Option.none, Option.none⟩).2.2 rfl rfl).2

/-! ## C5: the Nightcore short-circuit -/

/-- C5.  For every resolver input without a trackid whose candidate list
contains a search with a NIGHTCORE artist term, `analyze_brainz` performs
no remote call at all and returns the synthetic result built from the
first such candidate: its title (or the input title when the term is
empty), artist `["Nightcore"]`, album `Some("Nightcore")`, and no
recording id. -/
theorem analyzeBrainz_nightcore_short_circuit
    (fetchById : String → Except BrainzError BrainzMetadata)
    (fetchRecordings : RecordingSearch → Except BrainzError BrainzMetadata)
    (dlp : BrainzMultiSearch) (c : RecordingSearch)
    (h1 : dlp.trackid = Option.none)
    (h2 : (buildSearches dlp).find? hasNightcoreArtist = some c) :
    analyzeBrainz fetchById fetchRecordings dlp =
      { result := .ok { brainzRecordingId := Option.none,
                        title := (c.title.getText).getD dlp.title,
                        artist := ["Nightcore"],
                        album := some "Nightcore" },
        fetchedById := [], fetchedSearches := [] } := by
  simp [analyzeBrainz, h1, h2]

/-- C5 witness: the S1 scenario input, with a resolver oracle that would
fail if it were consulted. -/
theorem analyzeBrainz_nightcore_short_circuit_witness :
    analyzeBrainz (fun _ => .error .emptyResult) (fun _ => .error .emptyResult)
      ⟨Option.none, "Some Song [Nightcore Remix]", some "NightcoreWorld",
        Option.none⟩ =
      { result := .ok { brainzRecordingId := Option.none,
                        title := "Some Song [Nightcore Remix]",
                        artist := ["Nightcore"],
                        album := some "Nightcore" },
        fetchedById := [], fetchedSearches := [] } :=
  analyzeBrainz_nightcore_short_circuit _ _ _
    ⟨QTerm.exact "Some Song [Nightcore Remix]",
      [QTerm.exact "NightcoreWorld"], QTerm.none⟩
    rfl (by decide)

/-! ## C6: the hyphen-split candidate -/

/-- C6 counterexample.  The claim says the candidate title is the entire
right side of the first `" - "` separator; on `"A - B - C"` that would be
`"B - C"`, but the source splits on every occurrence and takes `parts[1]`,
so the built candidates' titles are `"B"` and `"A"` and no candidate
carries title `"B - C"`. -/
theorem hyphenSplit_drops_later_segments :
    strContains "A - B - C" " - " = true ∧
    (buildSearches ⟨Option.none, "A - B - C", Option.none,
      Option.none⟩).map RecordingSearch.title =
      [QTerm.exact "B", QTerm.exact "A"] ∧
    (∀ c ∈ buildSearches ⟨Option.none, "A - B - C", Option.none,
      Option.none⟩, c.title ≠ QTerm.exact "B - C") := by
  refine ⟨rfl, rfl, ?_⟩
  decide

/-- C6 as amended.  When the title contains `" - "` it is split at every
occurrence; the segment after the first separator (up to the next one)
becomes the hyphen candidate's title and the segment before it the artist
source, artists further split on `ft./feat./;/&` with bracket punctuation
stripped; the reverse-orientation candidate follows, and both come after
the native-music-info candidates. -/
theorem hyphenSearches_from_split_segments (dlp : BrainzMultiSearch)
    (h : strContains dlp.title " - " = true) :
    buildSearches dlp = nativeSearches dlp ++ hyphenSearches dlp ∧
    hyphenSearches dlp =
      [{ title := QTerm.exact ((strSplitOn dlp.title " - ").getD 1 ""),
         artist := (splitArtists ((strSplitOn dlp.title " - ").getD 0 "")).map
           QTerm.exact,
         album := QTerm.none },
       { title := QTerm.exact ((strSplitOn dlp.title " - ").getD 0 ""),
         artist := (splitArtists ((strSplitOn dlp.title " - ").getD 1 "")).map
           QTerm.exact,
         album := QTerm.none }] := by
  exact ⟨rfl, by simp [hyphenSearches, h]⟩

/-- C6 witness: the S2 scenario, candidate title `"Track Name"`, artists
`["Artist A", "Artist B"]`. -/
theorem hyphenSearches_from_split_segments_witness :
    buildSearches ⟨Option.none, "Artist A ft. Artist B - Track Name",
        Option.none, Option.none⟩ =
      nativeSearches ⟨Option.none, "Artist A ft. Artist B - Track Name",
        Option.none, Option.none⟩ ++
      hyphenSearches ⟨Option.none, "Artist A ft. Artist B - Track Name",
        Option.none, Option.none⟩ ∧
    hyphenSearches ⟨Option.none, "Artist A ft. Artist B - Track Name",
        Option.none, Option.none⟩ =
      [{ title := QTerm.exact "Track Name",
         artist := [QTerm.exact "Artist A", QTerm.exact "Artist B"],
         album := QTerm.none },
       { title := QTerm.exact "Artist A ft. Artist B",
         artist := [QTerm.exact "Track Name"],
         album := QTerm.none }] :=
  hyphenSearches_from_split_segments _ (by decide)

/-! ## C4: `last_update` across writes -/

/-- C4 counterexample.  The mirror worker's `set_jellyfin_id` and the
reindex update persist row mutations without touching `last_update`: on a
row whose `last_update` is 5, a write at wall-clock 10 leaves 5. -/
theorem setJellyfinId_leaves_lastUpdate :
    (applyWrite (.setJelly "jelly-1") 10
      ⟨"vid", .categorized, Option.none, some 5, Option.none, Option.none,
        Option.none, Option.none, Option.none, Option.none⟩).lastUpdate =
      some 5 ∧
    (applyWrite (.setJelly "jelly-1") 10
      ⟨"vid", .categorized, Option.none, some 5, Option.none, Option.none,
        Option.none, Option.none, Option.none, Option.none⟩).lastUpdate ≠
      some 10 ∧
    (applyWrite .reindex 10
      ⟨"vid", .categorized, Option.none, some 5, Option.none, Option.none,
        Option.none, Option.none, Option.none, Option.none⟩).lastUpdate =
      some 5 := by
  refine ⟨rfl, ?_, rfl⟩
  decide

theorem optTimeLe_refl (a : Option Nat) : optTimeLe a a = true := by
  cases a <;> simp [optTimeLe]

theorem optTimeLe_mono_right {a : Option Nat} {x y : Nat}
    (h : optTimeLe a (some x) = true) (hxy : x ≤ y) :
    optTimeLe a (some y) = true := by
  cases a with
  | none => rfl
  | some b =>
    simp only [optTimeLe, decide_eq_true_eq] at h ⊢
    omega

theorem applyWrite_lastUpdate_bounds (op : DbWrite) (now : Nat)
    (v : VideoStatus) (h : optTimeLe v.lastUpdate (some now) = true) :
    optTimeLe v.lastUpdate (applyWrite op now v).lastUpdate = true ∧
    optTimeLe (applyWrite op now v).lastUpdate (some now) = true := by
  cases op with
  | modify f =>
    cases hf : (f v).2 with
    | true => exact ⟨by simp [applyWrite, hf, h], by simp [applyWrite, hf, optTimeLe_refl]⟩
    | false => exact ⟨by simp [applyWrite, hf, optTimeLe_refl], by simp [applyWrite, hf, h]⟩
  | pushUpdate f => exact ⟨h, by simp [applyWrite, optTimeLe_refl]⟩
  | reindex =>
    by_cases hs : v.fetchStatus = FetchStatus.categorized
    · exact ⟨by simp [applyWrite, hs, optTimeLe_refl], by simp [applyWrite, hs, h]⟩
    · exact ⟨by simp [applyWrite, hs, optTimeLe_refl], by simp [applyWrite, hs, h]⟩
  | setJelly j =>
    exact ⟨by simp [applyWrite, optTimeLe_refl], by simp [applyWrite, h]⟩

theorem writeTrace_chain (l : List (DbWrite × Nat)) : ∀ (v : VideoStatus)
    (lb : Nat), optTimeLe v.lastUpdate (some lb) = true →
    List.Chain' (· ≤ ·) (lb :: l.map Prod.snd) →
    List.Chain' (fun a b => optTimeLe a b = true)
      ((v :: writeTrace l v).map VideoStatus.lastUpdate) := by
  induction l with
  | nil =>
    intro v lb _ _
    simp [writeTrace]
  | cons e rest ih =>
    intro v lb h hc
    obtain ⟨op, t⟩ := e
    rw [List.map_cons, List.chain'_cons] at hc
    have hvt : optTimeLe v.lastUpdate (some t) = true :=
      optTimeLe_mono_right h hc.1
    have hb := applyWrite_lastUpdate_bounds op t v hvt
    simp only [writeTrace, List.map_cons, List.chain'_cons]
    exact ⟨hb.1, by
      have := ih (applyWrite op t v) t hb.2 hc.2
      simpa using this⟩

/-- C4 as amended.  `modify_video_status`-persisted writes and
`push_update` writes set `last_update` to the current wall clock; the
reindex update and `set_jellyfin_id` leave it unchanged; consequently
along any sequence of row writes at non-decreasing wall-clock times the
row's `last_update` is monotonically non-decreasing. -/
theorem lastUpdate_write_discipline :
    (∀ (f : VideoStatus → VideoStatus) (now : Nat) (v : VideoStatus),
      (applyWrite (.pushUpdate f) now v).lastUpdate = some now) ∧
    (∀ (f : VideoStatus → VideoStatus × Bool) (now : Nat) (v : VideoStatus),
      (f v).2 = true → (applyWrite (.modify f) now v).lastUpdate = some now) ∧
    (∀ (f : VideoStatus → VideoStatus × Bool) (now : Nat) (v : VideoStatus),
      (f v).2 = false → applyWrite (.modify f) now v = v) ∧
    (∀ (now : Nat) (v : VideoStatus),
      (applyWrite .reindex now v).lastUpdate = v.lastUpdate) ∧
    (∀ (j : String) (now : Nat) (v : VideoStatus),
      (applyWrite (.setJelly j) now v).lastUpdate = v.lastUpdate) ∧
    (∀ (l : List (DbWrite × Nat)) (v : VideoStatus) (lb : Nat),
      optTimeLe v.lastUpdate (some lb) = true →
      List.Chain' (· ≤ ·) (lb :: l.map Prod.snd) →
      List.Chain' (fun a b => optTimeLe a b = true)
        ((v :: writeTrace l v).map VideoStatus.lastUpdate)) := by
  refine ⟨?_, ?_, ?_, ?_, ?_, writeTrace_chain⟩
  · intro f now v; simp [applyWrite]
  · intro f now v hf; simp [applyWrite, hf]
  · intro f now v hf; simp [applyWrite, hf]
  · intro now v
    by_cases hs : v.fetchStatus = FetchStatus.categorized <;>
      simp [applyWrite, hs]
  · intro j now v; simp [applyWrite]

/-- C4 witness: a push, a jellyfin-id assignment and a persisted modify at
times 3, 4, 7 starting from a fresh row keep `last_update` non-decreasing,
and the modify at 7 stamps 7. -/
theorem lastUpdate_write_discipline_witness :
    (applyWrite (.modify (fun v => (v, true))) 7
      ⟨"vid", .notFetched, Option.none, Option.none, Option.none,
        Option.none, Option.none, Option.none, Option.none,
        Option.none⟩).lastUpdate = some 7 ∧
    List.Chain' (fun a b => optTimeLe a b = true)
      ((⟨"vid", .notFetched, Option.none, Option.none, Option.none,
          Option.none, Option.none, Option.none, Option.none, Option.none⟩ ::
        writeTrace
          [(.pushUpdate id, 3), (.setJelly "J", 4),
           (.modify (fun v => (v, true)), 7)]
          ⟨"vid", .notFetched, Option.none, Option.none, Option.none,
            Option.none, Option.none, Option.none, Option.none,
            Option.none⟩).map VideoStatus.lastUpdate) := by
  constructor
  · exact lastUpdate_write_discipline.2.1 (fun v => (v, true)) 7 _ rfl
  · exact lastUpdate_write_discipline.2.2.2.2.2
      [(.pushUpdate id, 3), (.setJelly "J", 4),
       (.modify (fun v => (v, true)), 7)] _ 0 rfl
      (by simp [List.chain'_cons])

/-! ## C9: deletion refusal and upward pruning -/

/-- C9 counterexample.  With the temp base configured strictly below the
music base, pruning after deleting `m/t/f` removes the directory `m/t`,
which equals the configured temp base path. -/
theorem cleanup_can_remove_nested_base :
    cleanupDirectory ⟨["m"], ["m", "t"], Option.none⟩ (fun _ => some 0)
      (fun _ => true) ["m", "t", "f"] = [["m", "t"]] ∧
    ["m", "t"] ∈ getBasePaths ⟨["m"], ["m", "t"], Option.none⟩ := by
  constructor
  · rfl
  · decide

theorem cleanupLoop_subfile (s : MsPaths) (rdc : FsPath → Option Nat)
    (rok : FsPath → Bool) : ∀ (fuel : Nat) (p : FsPath),
    ∀ d ∈ cleanupLoop s rdc rok fuel p, isSubFile s d = true := by
  intro fuel
  induction fuel with
  | zero => intro p d hd; simp [cleanupLoop] at hd
  | succ n ih =>
    intro p d hd
    by_cases hp : isSubFile s p
    · simp only [cleanupLoop, hp, if_true] at hd
      match hr : rdc p with
      | some 0 =>
        rw [hr] at hd
        by_cases hrm : rok p
        · simp only [hrm, if_true] at hd
          rcases List.mem_cons.mp hd with h1 | h1
          · exact h1 ▸ hp
          · match hpp : parentDir p with
            | some q => rw [hpp] at h1; exact ih q d h1
            | Option.none => rw [hpp] at h1; simp at h1
        · simp [hrm] at hd
      | some (n + 1) => rw [hr] at hd; simp at hd
      | Option.none => rw [hr] at hd; simp at hd
    · simp [cleanupLoop, hp] at hd

/-- C9 as amended.  `delete_file` refuses (and prunes nothing) unless the
path is strictly below a configured base; `is_sub_file` is exactly "starts
with some base and differs from it"; and every directory the pruning walk
removes is itself strictly below some configured base — in particular none
lies outside all bases, and none equals a base unless one base is nested
strictly below another. -/
theorem deleteFile_refusal_and_prune_below_base :
    (∀ (s : MsPaths) (rdc : FsPath → Option Nat) (rok : FsPath → Bool)
      (removeFileOk : Bool) (path : FsPath), isSubFile s path = false →
      deleteFile s removeFileOk rdc rok path =
        .error "Not in music or temp directory") ∧
    (∀ (s : MsPaths) (path : FsPath), isSubFile s path = true ↔
      ∃ b ∈ getBasePaths s, b.isPrefixOf path = true ∧ path ≠ b) ∧
    (∀ (s : MsPaths) (rdc : FsPath → Option Nat) (rok : FsPath → Bool)
      (file : FsPath), ∀ d ∈ cleanupDirectory s rdc rok file,
      isSubFile s d = true) := by
  refine ⟨?_, ?_, ?_⟩
  · intro s rdc rok removeFileOk path h
    simp [deleteFile, h]
  · intro s path
    simp [isSubFile, List.any_eq_true, Bool.and_eq_true, bne_iff_ne]
  · intro s rdc rok file d hd
    unfold cleanupDirectory at hd
    by_cases hf : isSubFile s file
    · simp only [hf, if_true] at hd
      match hpp : parentDir file with
      | some q =>
        rw [hpp] at hd
        exact cleanupLoop_subfile s rdc rok _ q d hd
      | Option.none => rw [hpp] at hd; simp at hd
    · simp [hf] at hd

/-- C9 witness: a delete outside the bases is refused, a nested path is
recognized, and the S4-style prune of empty `Artist/Album` directories
stays strictly below the music base. -/
theorem deleteFile_refusal_and_prune_below_base_witness :
    deleteFile ⟨["music"], ["tmp"], Option.none⟩ true (fun _ => some 0)
      (fun _ => true) ["elsewhere", "f"] =
      .error "Not in music or temp directory" ∧
    (isSubFile ⟨["music"], ["tmp"], Option.none⟩ ["music", "Artist"] = true ↔
      ∃ b ∈ getBasePaths ⟨["music"], ["tmp"], Option.none⟩,
        b.isPrefixOf ["music", "Artist"] = true ∧ ["music", "Artist"] ≠ b) ∧
    (∀ d ∈ cleanupDirectory ⟨["music"], ["tmp"], Option.none⟩
      (fun _ => some 0) (fun _ => true) ["music", "Artist", "Album", "f"],
      isSubFile ⟨["music"], ["tmp"], Option.none⟩ d = true) := by
  refine ⟨?_, ?_, ?_⟩
  · exact deleteFile_refusal_and_prune_below_base.1 _ _ _ _ _ (by decide)
  · exact deleteFile_refusal_and_prune_below_base.2.1 _ _
  · exact deleteFile_refusal_and_prune_below_base.2.2 _ _ _ _

/-! ## C10: the operator delete command under a failed file removal -/

/-- C10 counterexample.  Even when the library file is found and its
removal fails, the delete command has already deleted the cached extractor
metadata row (`delete_yt_data` runs first inside the functor), so the
command is not free of persistent effects. -/
theorem deleteCommand_removes_ytdata_on_failed_removal :
    (deleteCommand ⟨some ⟨"vid", .categorized, Option.none, some 5,
        Option.none, Option.none, Option.none, Option.none, Option.none,
        Option.none⟩, some "cached-json"⟩ true false 9).1.ytdata =
      Option.none ∧
    (some "cached-json" : Option String) ≠ Option.none ∧
    (deleteCommand ⟨some ⟨"vid", .categorized, Option.none, some 5,
        Option.none, Option.none, Option.none, Option.none, Option.none,
        Option.none⟩, some "cached-json"⟩ true false 9).2 = Option.none := by
  refine ⟨rfl, ?_, rfl⟩
  decide

/-- C10 as amended.  When a library file is found but its removal fails,
the Item row is left unchanged — no transition to Disabled, the in-memory
`last_error` is not persisted — and no change notification is published,
although the cached extractor-metadata row is deleted regardless; when the
removal succeeds or no file exists, the row is persisted as Disabled with
`last_update` stamped and a notification carrying that row is published. -/
theorem deleteCommand_failure_leaves_row (db : DeleteDbState) (now : Nat)
    (v : VideoStatus) (h : db.status = some v) :
    (deleteCommand db true false now =
      ({ db with ytdata := Option.none }, Option.none)) ∧
    ((deleteCommand db true false now).1.status = db.status) ∧
    (∀ fileFound removeOk : Bool, (fileFound && !removeOk) = false →
      deleteCommand db fileFound removeOk now =
        (⟨some { v with fetchStatus := .disabled, lastUpdate := some now },
          Option.none⟩,
          some { v with fetchStatus := .disabled, lastUpdate := some now })) := by
  refine ⟨?_, ?_, ?_⟩
  · simp [deleteCommand, h]
  · simp [deleteCommand, h]
  · intro fileFound removeOk hfr
    simp [deleteCommand, h, hfr]

/-- C10 witness: the failing and the succeeding branch at a concrete
Categorized row. -/
theorem deleteCommand_failure_leaves_row_witness :
    (deleteCommand ⟨some ⟨"vid", .categorized, Option.none, some 5,
        Option.none, Option.none, Option.none, Option.none, Option.none,
        Option.none⟩, some "cached-json"⟩ true false 9 =
      (⟨some ⟨"vid", .categorized, Option.none, some 5, Option.none,
        Option.none, Option.none, Option.none, Option.none, Option.none⟩,
        Option.none⟩, Option.none)) ∧
    (deleteCommand ⟨some ⟨"vid", .categorized, Option.none, some 5,
        Option.none, Option.none, Option.none, Option.none, Option.none,
        Option.none⟩, some "cached-json"⟩ true true 9 =
      (⟨some ⟨"vid", .disabled, Option.none, some 9, Option.none,
        Option.none, Option.none, Option.none, Option.none, Option.none⟩,
        Option.none⟩,
        some ⟨"vid", .disabled, Option.none, some 9, Option.none,
          Option.none, Option.none, Option.none, Option.none,
          Option.none⟩)) := by
  constructor
  · exact (deleteCommand_failure_leaves_row ⟨some ⟨"vid", .categorized,
      Option.none, some 5, Option.none, Option.none, Option.none,
      Option.none, Option.none, Option.none⟩, some "cached-json"⟩ 9
      ⟨"vid", .categorized, Option.none, some 5, Option.none, Option.none,
        Option.none, Option.none, Option.none, Option.none⟩ rfl).1
  · exact (deleteCommand_failure_leaves_row ⟨some ⟨"vid", .categorized,
      Option.none, some 5, Option.none, Option.none, Option.none,
      Option.none, Option.none, Option.none⟩, some "cached-json"⟩ 9
      ⟨"vid", .categorized, Option.none, some 5, Option.none, Option.none,
        Option.none, Option.none, Option.none, Option.none⟩ rfl).2.2
      true true rfl

/-! ## Helper lemmas: decimal printing and date parsing -/

theorem digitsToNatGo_append (acc : Nat) (xs ys : List Char) :
    digitsToNatGo acc (xs ++ ys) =
      (digitsToNatGo acc xs).bind (fun a => digitsToNatGo a ys) := by
  induction xs generalizing acc with
  | nil => rfl
  | cons c rest ih =>
    cases hc : charToDigit c with
    | none => simp [digitsToNatGo, hc]
    | some d => simp [digitsToNatGo, hc, ih]

theorem charToDigit_digitChar (d : Nat) (h : d < 10) :
    charToDigit (Nat.digitChar d) = some d := by
  interval_cases d <;> decide

theorem natToDigitsGo_ne_nil (fuel n : Nat) : natToDigitsGo fuel n ≠ [] := by
  cases fuel with
  | zero => simp [natToDigitsGo]
  | succ m => by_cases h : n < 10 <;> simp [natToDigitsGo, h]

theorem digitsToNatGo_natToDigitsGo : ∀ (fuel n acc : Nat), n ≤ fuel →
    digitsToNatGo acc (natToDigitsGo fuel n).reverse =
      some (acc * 10 ^ (natToDigitsGo fuel n).length + n) := by
  intro fuel
  induction fuel with
  | zero =>
    intro n acc h
    have hn : n = 0 := Nat.le_zero.mp h
    subst hn
    simp [natToDigitsGo, digitsToNatGo, charToDigit_digitChar 0 (by omega)]
  | succ m ih =>
    intro n acc h
    by_cases h10 : n < 10
    · simp [natToDigitsGo, h10, digitsToNatGo, charToDigit_digitChar n h10]
    · have hdiv : n / 10 ≤ m := by
        have := Nat.div_lt_self (by omega : 0 < n) (by omega : 1 < 10)
        omega
      have hmod : n % 10 < 10 := Nat.mod_lt _ (by omega)
      simp only [natToDigitsGo, h10, if_false, List.reverse_cons]
      rw [digitsToNatGo_append, ih (n / 10) acc hdiv]
      simp only [Option.some_bind, digitsToNatGo,
        charToDigit_digitChar _ hmod, List.length_cons]
      have h1 : 10 * (n / 10) + n % 10 = n := Nat.div_add_mod n 10
      have h2 : (10 : Nat) ^ ((natToDigitsGo m (n / 10)).length + 1) =
          10 ^ (natToDigitsGo m (n / 10)).length * 10 := pow_succ 10 _
      congr 1
      calc (acc * 10 ^ (natToDigitsGo m (n / 10)).length + n / 10) * 10 + n % 10
          = acc * (10 ^ (natToDigitsGo m (n / 10)).length * 10) +
            (10 * (n / 10) + n % 10) := by ring
        _ = acc * 10 ^ ((natToDigitsGo m (n / 10)).length + 1) + n := by
            rw [h1, h2]

theorem digitsToNatGo_replicate (acc k : Nat) :
    digitsToNatGo acc (List.replicate k '0') = some (acc * 10 ^ k) := by
  induction k generalizing acc with
  | zero => simp [digitsToNatGo]
  | succ j ih =>
    have h0 : charToDigit '0' = some 0 := by decide
    simp only [List.replicate, digitsToNatGo, h0, ih]
    congr 1
    ring

theorem digitsToNat_padDigits (w n : Nat) :
    digitsToNat (padDigits w n) = some n := by
  unfold digitsToNat padDigits natToDigits
  rw [if_neg (by
    simp [List.isEmpty_iff, List.reverse_eq_nil_iff, natToDigitsGo_ne_nil])]
  rw [digitsToNatGo_append, digitsToNatGo_replicate]
  simp only [Option.some_bind, zero_mul]
  rw [digitsToNatGo_natToDigitsGo n n 0 (Nat.le_refl n)]
  simp

theorem mem_natToDigitsGo_digit : ∀ (fuel n : Nat), n ≤ fuel →
    ∀ c ∈ natToDigitsGo fuel n, ∃ d, d < 10 ∧ c = Nat.digitChar d := by
  intro fuel
  induction fuel with
  | zero =>
    intro n h c hc
    have hn : n = 0 := by omega
    subst hn
    simp [natToDigitsGo] at hc
    exact ⟨0, by omega, hc⟩
  | succ m ih =>
    intro n h c hc
    by_cases h10 : n < 10
    · simp [natToDigitsGo, h10] at hc
      exact ⟨n, h10, hc⟩
    · simp only [natToDigitsGo, h10, if_false, List.mem_cons] at hc
      rcases hc with hc | hc
      · exact ⟨n % 10, Nat.mod_lt _ (by omega), hc⟩
      · have hdiv : n / 10 ≤ m := by
          have := Nat.div_lt_self (by omega : 0 < n) (by omega : 1 < 10)
          omega
        exact ih (n / 10) hdiv c hc

theorem padDigits_ne_dash (w n : Nat) : ∀ c ∈ padDigits w n, c ≠ '-' := by
  intro c hc
  unfold padDigits natToDigits at hc
  rw [List.mem_append] at hc
  rcases hc with hc | hc
  · have := List.eq_of_mem_replicate hc
    subst this
    decide
  · rw [List.mem_reverse] at hc
    obtain ⟨d, hdlt, hcd⟩ := mem_natToDigitsGo_digit n n (Nat.le_refl n) c hc
    subst hcd
    intro hcon
    have hch := charToDigit_digitChar d hdlt
    rw [hcon] at hch
    have hnone : charToDigit '-' = Option.none := by decide
    rw [hnone] at hch
    cases hch

theorem splitOnCharList_ne_nil (sep : Char) (l : List Char) :
    splitOnCharList sep l ≠ [] := by
  cases l with
  | nil => simp [splitOnCharList]
  | cons c rest =>
    simp only [splitOnCharList]
    cases h : splitOnCharList sep rest with
    | nil => simp
    | cons p ps => by_cases hc : c = sep <;> simp [hc]

theorem splitOnCharList_no_sep (sep : Char) : ∀ (xs : List Char),
    (∀ c ∈ xs, c ≠ sep) → splitOnCharList sep xs = [xs] := by
  intro xs
  induction xs with
  | nil => intro _; rfl
  | cons c rest ih =>
    intro h
    have hc : c ≠ sep := h c (by simp)
    have hr : splitOnCharList sep rest = [rest] :=
      ih (fun e he => h e (by simp [he]))
    simp [splitOnCharList, hr, hc]

theorem splitOnCharList_append_sep (sep : Char) : ∀ (xs ys : List Char),
    (∀ c ∈ xs, c ≠ sep) →
    splitOnCharList sep (xs ++ sep :: ys) = xs :: splitOnCharList sep ys := by
  intro xs
  induction xs with
  | nil =>
    intro ys _
    simp only [List.nil_append, splitOnCharList]
    cases h : splitOnCharList sep ys with
    | nil => exact absurd h (splitOnCharList_ne_nil sep ys)
    | cons p ps => simp
  | cons c rest ih =>
    intro ys h
    have hc : c ≠ sep := h c (by simp)
    have hr := ih ys (fun e he => h e (by simp [he]))
    simp only [List.cons_append, splitOnCharList, List.append_eq]
    rw [hr]
    simp [hc]

theorem fromStr_format (ts : Timestamp) (m d : Nat) (hm : ts.month = some m)
    (hd : ts.day = some d) : Timestamp.fromStr ts.format = some ts := by
  obtain ⟨y, mo, dy⟩ := ts
  simp only at hm hd
  subst hm
  subst hd
  unfold Timestamp.format Timestamp.fromStr
  simp only [Option.getD_some]
  have ht : ∀ l : List Char, (String.mk l).toList = l := fun _ => rfl
  rw [ht, List.append_assoc, List.cons_append]
  rw [splitOnCharList_append_sep '-' (padDigits 4 y) _ (padDigits_ne_dash 4 y),
    splitOnCharList_append_sep '-' (padDigits 2 m) _ (padDigits_ne_dash 2 m),
    splitOnCharList_no_sep '-' (padDigits 2 d) (padDigits_ne_dash 2 d)]
  simp [digitsToNat_padDigits]

theorem intercalate_singleton (s a : String) :
    String.intercalate s [a] = a := by
  simp [String.intercalate, String.intercalate.go]

theorem filter_eq_filter_ne_nil {β : Type} (k : String)
    (l : List (String × β)) :
    (l.filter (fun e => e.1 != k)).filter (fun e => e.1 == k) = [] := by
  induction l with
  | nil => rfl
  | cons e rest ih =>
    by_cases he : e.1 = k
    · simp [List.filter_cons, he, ih]
    · simp [List.filter_cons, he, ih]

/-! ## C8: the tag abstraction -/

/-- C8 counterexample.  The comment operations are not uniform across all
five backends: the source match of `set_comment` has no Ogg arm at all, so
writing the `youtube_id` comment on an Ogg tag is impossible, and on ID3
`add_comment` goes through `add_frame`, which replaces the existing
extended-text frame with the same description instead of appending. -/
theorem commentOps_not_uniform_across_backends :
    (Tag.oggTag ⟨[]⟩).setComment "youtube_id" "x" = Option.none ∧
    ((Tag.id3Tag ⟨Option.none, Option.none, Option.none, Option.none,
        Option.none, [("k", "old")], []⟩).addComment "k" "new").map
      (fun u => u.commentValues "k") = some ["new"] ∧
    some ["new"] ≠ some ["old", "new"] := by
  refine ⟨rfl, rfl, ?_⟩
  decide

theorem cmGet_cmSet (k j : String) (vs : List String) (m : CommentMap) :
    cmGet k (cmSet j vs m) = if k = j then some vs else cmGet k m := by
  by_cases h : k = j
  · subst h; simp [cmGet_cmSet_self]
  · simp [h, cmGet_cmSet_ne k j vs m h]

theorem cmGet_cmRemove (k j : String) (m : CommentMap) :
    cmGet k (cmRemove j m) = if k = j then Option.none else cmGet k m := by
  by_cases h : k = j
  · subst h; simp [cmGet_cmRemove_self]
  · simp [h, cmGet_cmRemove_ne k j m h]

theorem cmGet_cmAppend (k j v : String) (m : CommentMap) :
    cmGet k (cmAppend j v m) =
      if k = j then some ((cmGet j m).getD [] ++ [v]) else cmGet k m := by
  by_cases h : k = j
  · subst h; simp [cmGet_cmAppend_self]
  · simp [h, cmGet_cmAppend_ne k j v m h]

theorem writeSubset_form_flac (i : FlacStore)
    (title artist albumT albumA : String) (ts : Timestamp) (y mb : String) :
    writeSubset (Tag.vorbisFlacTag i) title artist albumT albumA ts y mb =
      some (Tag.vorbisFlacTag ⟨cmSet "MUSICBRAINZ_TRACKID" [mb]
        (cmSet "youtube_id" [y] (cmSet "DATE" [ts.format] (cmRemove "DATE"
        (cmSet "ALBUM_ARTIST" [albumA] (cmSet "ALBUM ARTIST" [albumA]
        (cmSet "ALBUMARTIST" [albumA] (cmSet "ALBUM" [albumT]
        (cmRemove "ALBUM_ARTIST" (cmRemove "ALBUM ARTIST"
        (cmRemove "ALBUMARTIST" (cmRemove "ALBUM"
        (cmSet "ARTIST" [artist] (cmRemove "ARTIST"
        (cmSet "TITLE" [title]
          (cmRemove "TITLE" i.comments)))))))))))))))⟩) := by
  rw [writeSubset]
  rw [show (Tag.vorbisFlacTag i).removeTitle =
    Tag.vorbisFlacTag ⟨cmRemove "TITLE" i.comments⟩ from rfl]
  rw [show ∀ c : CommentMap, (Tag.vorbisFlacTag ⟨c⟩).setTitle title =
    Tag.vorbisFlacTag ⟨cmSet "TITLE" [title] c⟩ from fun _ => rfl]
  rw [show ∀ c : CommentMap, (Tag.vorbisFlacTag ⟨c⟩).removeArtist =
    Tag.vorbisFlacTag ⟨cmRemove "ARTIST" c⟩ from fun _ => rfl]
  rw [show ∀ c : CommentMap, (Tag.vorbisFlacTag ⟨c⟩).setArtist artist =
    Tag.vorbisFlacTag ⟨cmSet "ARTIST" [artist] c⟩ from fun _ => rfl]
  rw [show ∀ c : CommentMap, (Tag.vorbisFlacTag ⟨c⟩).removeAllAlbumInfo =
    Tag.vorbisFlacTag ⟨cmRemove "ALBUM_ARTIST" (cmRemove "ALBUM ARTIST"
      (cmRemove "ALBUMARTIST" (cmRemove "ALBUM" c)))⟩ from fun _ => rfl]
  rw [show ∀ c : CommentMap,
    (Tag.vorbisFlacTag ⟨c⟩).setAlbumInfo ⟨some albumT, some albumA⟩ =
    Tag.vorbisFlacTag ⟨cmSet "ALBUM_ARTIST" [albumA] (cmSet "ALBUM ARTIST"
      [albumA] (cmSet "ALBUMARTIST" [albumA] (cmSet "ALBUM" [albumT] c)))⟩
    from fun _ => rfl]
  rw [show ∀ c : CommentMap, (Tag.vorbisFlacTag ⟨c⟩).removeDate =
    Tag.vorbisFlacTag ⟨cmRemove "DATE" c⟩ from fun _ => rfl]
  rw [show ∀ c : CommentMap, (Tag.vorbisFlacTag ⟨c⟩).setDate ts =
    Tag.vorbisFlacTag ⟨cmSet "DATE" [ts.format] c⟩ from fun _ => rfl]
  rw [show ∀ c : CommentMap,
    (Tag.vorbisFlacTag ⟨c⟩).setComment "youtube_id" y =
    some (Tag.vorbisFlacTag ⟨cmSet "youtube_id" [y] c⟩) from fun _ => rfl]
  rw [Option.some_bind]
  rw [show ∀ c : CommentMap, setMusicbrainzId (Tag.vorbisFlacTag ⟨c⟩) mb =
    some (Tag.vorbisFlacTag ⟨cmSet "MUSICBRAINZ_TRACKID" [mb] c⟩)
    from fun _ => rfl]

theorem writeSubset_form_opus (i : OpusStore)
    (title artist albumT albumA : String) (ts : Timestamp) (y mb : String) :
    writeSubset (Tag.opusTag i) title artist albumT albumA ts y mb =
      some (Tag.opusTag ⟨cmSet "musicbrainz_trackid" [mb]
        (cmRemove "musicbrainz_trackid" (cmSet "youtube_id" [y]
        (cmRemove "youtube_id" (cmAppend "DATE" ts.format (cmRemove "DATE"
        (cmRemove "DATE"
        (cmAppend "ALBUM_ARTIST" albumA (cmAppend "ALBUMARTIST" albumA
        (cmAppend "ALBUM" albumT
        (cmRemove "ALBUM_ARTIST" (cmRemove "ALBUMARTIST" (cmRemove "ALBUM"
        (cmAppend "ARTIST" artist (cmRemove "ARTIST" (cmRemove "ARTIST"
        (cmAppend "TITLE" title
          (cmRemove "TITLE" i.comments)))))))))))))))))⟩) := by
  rw [writeSubset]
  rw [show (Tag.opusTag i).removeTitle =
    Tag.opusTag ⟨cmRemove "TITLE" i.comments⟩ from rfl]
  rw [show ∀ c : CommentMap, (Tag.opusTag ⟨c⟩).setTitle title =
    Tag.opusTag ⟨cmAppend "TITLE" title c⟩ from fun _ => rfl]
  rw [show ∀ c : CommentMap, (Tag.opusTag ⟨c⟩).removeArtist =
    Tag.opusTag ⟨cmRemove "ARTIST" c⟩ from fun _ => rfl]
  rw [show ∀ c : CommentMap, (Tag.opusTag ⟨c⟩).setArtist artist =
    Tag.opusTag ⟨cmAppend "ARTIST" artist (cmRemove "ARTIST" c)⟩
    from fun _ => rfl]
  rw [show ∀ c : CommentMap, (Tag.opusTag ⟨c⟩).removeAllAlbumInfo =
    Tag.opusTag ⟨cmRemove "ALBUM_ARTIST" (cmRemove "ALBUMARTIST"
      (cmRemove "ALBUM" c))⟩ from fun _ => rfl]
  rw [show ∀ c : CommentMap,
    (Tag.opusTag ⟨c⟩).setAlbumInfo ⟨some albumT, some albumA⟩ =
    Tag.opusTag ⟨cmAppend "ALBUM_ARTIST" albumA (cmAppend "ALBUMARTIST"
      albumA (cmAppend "ALBUM" albumT c))⟩ from fun _ => rfl]
  rw [show ∀ c : CommentMap, (Tag.opusTag ⟨c⟩).removeDate =
    Tag.opusTag ⟨cmRemove "DATE" c⟩ from fun _ => rfl]
  rw [show ∀ c : CommentMap, (Tag.opusTag ⟨c⟩).setDate ts =
    Tag.opusTag ⟨cmAppend "DATE" ts.format (cmRemove "DATE" c)⟩
    from fun _ => rfl]
  rw [show ∀ c : CommentMap, (Tag.opusTag ⟨c⟩).setComment "youtube_id" y =
    some (Tag.opusTag ⟨cmSet "youtube_id" [y] (cmRemove "youtube_id" c)⟩)
    from fun _ => rfl]
  rw [Option.some_bind]
  rw [show ∀ c : CommentMap, setMusicbrainzId (Tag.opusTag ⟨c⟩) mb =
    some (Tag.opusTag ⟨cmSet "musicbrainz_trackid" [mb]
      (cmRemove "musicbrainz_trackid" c)⟩) from fun _ => rfl]

theorem writeSubset_form_mp4 (i : Mp4Store)
    (title artist albumT albumA : String) (ts : Timestamp) (y mb : String) :
    writeSubset (Tag.mp4Tag i) title artist albumT albumA ts y mb =
      some (Tag.mp4Tag ⟨some title, some artist, some albumT, some albumA,
        cmSet "MusicBrainz Track Id" [mb] (cmSet "youtube_id" [y] i.freeform),
        some ts.format⟩) := by
  rw [writeSubset]
  rw [show (Tag.mp4Tag i).removeTitle = Tag.mp4Tag { i with title := Option.none } from rfl]
  rw [show (Tag.mp4Tag { i with title := Option.none }).setTitle title = Tag.mp4Tag { i with title := some title } from rfl]
  rw [show (Tag.mp4Tag { i with title := some title }).removeArtist = Tag.mp4Tag { i with title := some title, artist := Option.none } from rfl]
  rw [show (Tag.mp4Tag { i with title := some title, artist := Option.none }).setArtist artist = Tag.mp4Tag { i with title := some title, artist := some artist } from rfl]
  rw [show (Tag.mp4Tag { i with title := some title, artist := some artist }).removeAllAlbumInfo = Tag.mp4Tag { i with title := some title, artist := some artist, album := Option.none, albumArtist := Option.none } from rfl]
  rw [show (Tag.mp4Tag { i with title := some title, artist := some artist, album := Option.none, albumArtist := Option.none }).setAlbumInfo ⟨some albumT, some albumA⟩ = Tag.mp4Tag { i with title := some title, artist := some artist, album := some albumT, albumArtist := some albumA } from rfl]
  rw [show (Tag.mp4Tag { i with title := some title, artist := some artist, album := some albumT, albumArtist := some albumA }).removeDate = Tag.mp4Tag { i with title := some title, artist := some artist, album := some albumT, albumArtist := some albumA, dateData := Option.none } from rfl]
  rw [show (Tag.mp4Tag { i with title := some title, artist := some artist, album := some albumT, albumArtist := some albumA, dateData := Option.none }).setDate ts = Tag.mp4Tag { i with title := some title, artist := some artist, album := some albumT, albumArtist := some albumA, dateData := some ts.format } from rfl]
  rw [show (Tag.mp4Tag { i with title := some title, artist := some artist, album := some albumT, albumArtist := some albumA, dateData := some ts.format }).setComment "youtube_id" y = some (Tag.mp4Tag { i with title := some title, artist := some artist, album := some albumT, albumArtist := some albumA, freeform := cmSet "youtube_id" [y] i.freeform, dateData := some ts.format }) from rfl]
  rw [Option.some_bind]
  rw [show setMusicbrainzId (Tag.mp4Tag { i with title := some title, artist := some artist, album := some albumT, albumArtist := some albumA, freeform := cmSet "youtube_id" [y] i.freeform, dateData := some ts.format }) mb = some (Tag.mp4Tag { i with title := some title, artist := some artist, album := some albumT, albumArtist := some albumA, freeform := cmSet "MusicBrainz Track Id" [mb] (cmSet "youtube_id" [y] i.freeform), dateData := some ts.format }) from rfl]

theorem writeSubset_form_id3 (i : Id3Store)
    (title artist albumT albumA : String) (ts : Timestamp) (y mb : String) :
    writeSubset (Tag.id3Tag i) title artist albumT albumA ts y mb =
      some (Tag.id3Tag ⟨some title, some artist, some albumT, some albumA,
        some ts,
        i.extendedTexts.filter (fun e => e.1 != "youtube_id") ++
          [("youtube_id", y)],
        i.ufids.filter (fun e => e.1 != "http://musicbrainz.org") ++
          [("http://musicbrainz.org", mb)]⟩) := rfl

/-- C8 as amended.  On the four comment-capable backends (ID3,
FLAC/Vorbis, MP4, Opus) writing the semantic subset {title, artist, album,
date, `youtube_id` comment, musicbrainz id} — each field through its
remove-then-set pair, the comments through `set_comment` and the
format-specific musicbrainz channel — and re-reading yields exactly the
written values (for a nonempty artist and a date with month and day
present); `set_comment` replaces all existing values of the key on those
four backends; `add_comment` appends on FLAC (for upper-case keys, which
it normalizes to), MP4 and Opus, but replaces on ID3; and the Ogg backend
does not implement the comment operations at all. -/
theorem tagSubset_roundTrip_and_comment_semantics :
    (∀ (t : Tag) (title artist albumT albumA : String) (ts : Timestamp)
      (y mb : String) (m d : Nat), t.isOggTag = false → artist ≠ "" →
      ts.month = some m → ts.day = some d →
      ∃ u, writeSubset t title artist albumT albumA ts y mb = some u ∧
        u.title = some title ∧ u.artist = some artist ∧
        u.getAlbumInfo = some ⟨some albumT, some albumA⟩ ∧
        u.date = some ts ∧ u.getComment "youtube_id" = some y ∧
        getMusicbrainzId u = some mb) ∧
    (∀ (t : Tag) (k v : String) (u : Tag), t.isOggTag = false →
      t.setComment k v = some u → u.commentValues k = [v]) ∧
    (∀ (t : Tag) (k v : String) (u : Tag), strToUpper k = k →
      t.addComment k v = some u →
      u.commentValues k =
        (if t.isId3Tag then [v] else t.commentValues k ++ [v])) ∧
    (∀ (i : OggStore) (k v : String),
      (Tag.oggTag i).setComment k v = Option.none ∧
      (Tag.oggTag i).addComment k v = Option.none ∧
      (Tag.oggTag i).getComment k = Option.none) := by
  refine ⟨?_, ?_, ?_, ?_⟩
  · intro t title artist albumT albumA ts y mb m d hogg hartist hm hd
    cases t with
    | id3Tag i =>
      refine ⟨_, writeSubset_form_id3 i title artist albumT albumA ts y mb,
        rfl, rfl, rfl, rfl, ?_, ?_⟩
      · simp [Tag.getComment, List.find?_append, find?_filter_ne_key]
      · simp [getMusicbrainzId, List.find?_append, find?_filter_ne_key]
    | vorbisFlacTag i =>
      refine ⟨_, writeSubset_form_flac i title artist albumT albumA ts y mb,
        ?_, ?_, ?_, ?_, ?_, ?_⟩
      · simp [Tag.title, cmGet_cmSet, cmGet_cmRemove]
      · simp [Tag.artist, cmGet_cmSet, cmGet_cmRemove,
          intercalate_singleton, hartist]
      · simp [Tag.getAlbumInfo, cmGet_cmSet, cmGet_cmRemove]
      · simp [Tag.date, cmGet_cmSet, cmGet_cmRemove,
          fromStr_format ts m d hm hd]
      · simp [Tag.getComment, cmGet_cmSet, cmGet_cmRemove]
      · simp [getMusicbrainzId, Tag.getComment, cmGet_cmSet, cmGet_cmRemove]
    | mp4Tag i =>
      refine ⟨_, writeSubset_form_mp4 i title artist albumT albumA ts y mb,
        rfl, rfl, rfl, ?_, ?_, ?_⟩
      · simp [Tag.date, fromStr_format ts m d hm hd]
      · simp [Tag.getComment, cmGet_cmSet]
      · simp [getMusicbrainzId, Tag.getComment, cmGet_cmSet]
    | opusTag i =>
      refine ⟨_, writeSubset_form_opus i title artist albumT albumA ts y mb,
        ?_, ?_, ?_, ?_, ?_, ?_⟩
      · simp [Tag.title, cmGet_cmSet, cmGet_cmRemove, cmGet_cmAppend]
      · simp [Tag.artist, cmGet_cmSet, cmGet_cmRemove, cmGet_cmAppend,
          intercalate_singleton]
      · simp [Tag.getAlbumInfo, cmGet_cmSet, cmGet_cmRemove, cmGet_cmAppend,
          Option.orElse]
      · simp [Tag.date, cmGet_cmSet, cmGet_cmRemove, cmGet_cmAppend,
          fromStr_format ts m d hm hd]
      · simp [Tag.getComment, cmGet_cmSet, cmGet_cmRemove, cmGet_cmAppend]
      · simp [getMusicbrainzId, Tag.getComment, cmGet_cmSet, cmGet_cmRemove,
          cmGet_cmAppend]
    | oggTag i => simp [Tag.isOggTag] at hogg
  · intro t k v u hogg hset
    cases t with
    | id3Tag i =>
      obtain rfl := Option.some.inj hset
      simp [Tag.commentValues, List.filter_append, filter_eq_filter_ne_nil]
    | vorbisFlacTag i =>
      obtain rfl := Option.some.inj hset
      simp [Tag.commentValues, cmGet_cmSet_self]
    | mp4Tag i =>
      obtain rfl := Option.some.inj hset
      simp [Tag.commentValues, cmGet_cmSet_self]
    | opusTag i =>
      obtain rfl := Option.some.inj hset
      simp [Tag.commentValues, cmGet_cmSet_self]
    | oggTag i => simp [Tag.isOggTag] at hogg
  · intro t k v u hk hadd
    cases t with
    | id3Tag i =>
      obtain rfl := Option.some.inj hadd
      simp [Tag.commentValues, Tag.isId3Tag, List.filter_append,
        filter_eq_filter_ne_nil]
    | vorbisFlacTag i =>
      obtain rfl := Option.some.inj hadd
      rw [show Tag.commentValues
          (Tag.vorbisFlacTag ⟨cmAppend (strToUpper k) v i.comments⟩) k =
        (cmGet k (cmAppend (strToUpper k) v i.comments)).getD [] from rfl]
      rw [hk, cmGet_cmAppend_self]
      simp [Tag.commentValues, Tag.isId3Tag]
    | mp4Tag i =>
      obtain rfl := Option.some.inj hadd
      simp [Tag.commentValues, Tag.isId3Tag, cmGet_cmAppend_self]
    | opusTag i =>
      obtain rfl := Option.some.inj hadd
      simp [Tag.commentValues, Tag.isId3Tag, cmGet_cmAppend_self]
    | oggTag i => cases hadd
  · intro i k v
    exact ⟨rfl, rfl, rfl⟩

/-- C8 witness: the round trip on an empty FLAC tag and the append
semantics on an Opus tag with an existing value, at concrete data. -/
theorem tagSubset_roundTrip_witness :
    (∃ u, writeSubset (Tag.vorbisFlacTag ⟨[]⟩) "Track" "Artist" "Album"
        "AlbumArtist" ⟨2020, some 5, some 17⟩ "yid-1" "mb-1" = some u ∧
      u.title = some "Track" ∧ u.artist = some "Artist" ∧
      u.getAlbumInfo = some ⟨some "Album", some "AlbumArtist"⟩ ∧
      u.date = some ⟨2020, some 5, some 17⟩ ∧
      u.getComment "youtube_id" = some "yid-1" ∧
      getMusicbrainzId u = some "mb-1") ∧
    ((Tag.opusTag ⟨[("K", ["v1"])]⟩).addComment "K" "v2" =
        some (Tag.opusTag ⟨cmAppend "K" "v2" [("K", ["v1"])]⟩) →
      (Tag.opusTag ⟨cmAppend "K" "v2" [("K", ["v1"])]⟩).commentValues "K" =
        ["v1", "v2"]) := by
  constructor
  · exact tagSubset_roundTrip_and_comment_semantics.1
      (Tag.vorbisFlacTag ⟨[]⟩) "Track" "Artist" "Album" "AlbumArtist"
      ⟨2020, some 5, some 17⟩ "yid-1" "mb-1" 5 17 rfl (by decide) rfl rfl
  · intro hadd
    have happ := tagSubset_roundTrip_and_comment_semantics.2.2.1
      (Tag.opusTag ⟨[("K", ["v1"])]⟩) "K" "v2"
      (Tag.opusTag ⟨cmAppend "K" "v2" [("K", ["v1"])]⟩) (by decide) hadd
    simpa using happ

end Myousync
